import Mathlib

/-!
Formal model of the librelandlord billing engine.

This file is a shallow embedding of the calculation core of the repository
(files under `librelandlord/bill/models/` and the yearly-calculation view),
together with theorems settling the specification claims about it.

Modelling conventions:
* dates (Python `datetime.date`) are days since an arbitrary epoch, `ℤ`;
  `(d2 - d1).days` becomes plain integer subtraction;
* `Decimal` and `float` quantities are `ℚ` (the arithmetic of the source,
  carried out exactly);
* Django querysets become explicit lists stored on the owning entity;
  `filter` and `order_by` become `List.filter` and `List.insertionSort`;
* exceptions become `Except CalcError`; each `CalcError` constructor
  corresponds to one `raise` site of the source, and the wrapping
  re-raises are modelled by the wrapping constructors.
-/

namespace LibreLandlord

/-- Days since an arbitrary epoch, standing for `datetime.date`. -/
abbrev Date := ℤ

/-- One `MeterReading` row (`meter_reading.py`): a dated value of one meter.
The `time` column is not consumed by any verified computation and is omitted. -/
structure MeterReading where
  date : Date
  value : ℚ
  deriving Repr, DecidableEq

/-- One `Meter` row (`meter.py`) together with its `MeterReading` rows
(the reverse foreign key that the manager queries filter on).
Fields not consumed by the billing calculation (calibration, remote access)
are omitted. -/
structure Meter where
  meterNumber : String
  buildInDate : Date
  outOfOrderDate : Option Date
  readings : List MeterReading
  deriving Repr, DecidableEq

/-- Error taxonomy of the engine.  Each constructor corresponds to one
`raise` site of the source; the Python class of the exception is recorded
by `CalcError.isValueError` below, because `except ValueError` handlers
only catch that subset. -/
inductive CalcError where
  /-- `MeterNotActiveError` (`meter_reading.py`). -/
  | meterNotActive (target : Date)
  /-- `InsufficientDataError` (`meter_reading.py`). -/
  | insufficientData (target : Date)
  /-- `ValueError` for a malformed or out-of-validity-window period,
  carrying the offending entity's name. -/
  | invalidRange (name : String)
  /-- `NoActiveMetersError` (`meter_place.py`). -/
  | noActiveMeters
  /-- `MeterCalculationError`: the meter's clipped sub-period has
  `days_active <= 0` (`meter_place.py`). -/
  | meterPeriodEmpty (meterNumber : String)
  /-- `MeterCalculationError` wrapping a reading-resolver failure
  (`meter_place.py`, the `except` clause). -/
  | meterFailure (meterNumber : String) (inner : CalcError)
  /-- `ValueError` raised on division by zero (`consumption_calc.py`). -/
  | divisionByZero
  /-- `ValueError` for an unknown operator (`consumption_calc.py`). -/
  | unknownOperator (op : String)
  /-- `ValueError`: the calculation has no arguments (`consumption_calc.py`). -/
  | noArguments (name : String)
  /-- `ValueError` wrapper around a failing argument
  (`consumption_calc.py`, the `except ValueError` clause). -/
  | argumentFailure (argIndex : ℕ) (calcName : String) (inner : CalcError)
  /-- `ValueError`: an argument with no source set (`consumption_calc.py`). -/
  | missingSource (position : ℕ)
  /-- `ValueError`: `consumption_calc` required (`cost_center.py`). -/
  | missingConsumptionCalc
  /-- `ValueError`: an apartment is required (AREA / DIRECT / HEATING_MIXED,
  `cost_center.py`). -/
  | missingApartment
  /-- DIRECT: vacancy inside the relevant window (`cost_center.py`). -/
  | occupancyVacancy (apartmentName : String) (vacancies : List (Date × Date))
  /-- DIRECT: no renter in the relevant window (`cost_center.py`). -/
  | occupancyNoRenter (apartmentName : String)
  /-- DIRECT: renter change inside the relevant window (`cost_center.py`). -/
  | occupancyRenterChange (apartmentName : String) (renterIds : List ℕ)
  /-- DIRECT: different renters for different bills (`cost_center.py`). -/
  | occupancyDifferentRenters (apartmentName : String) (expected found : ℕ)
  /-- `ValueError` wrapper around a contribution's failure (`cost_center.py`). -/
  | contributionFailure (contributionId : ℕ) (inner : CalcError)
  /-- `ValueError` for an unknown distribution type (`cost_center.py`). -/
  | unknownDistributionType (s : String)
  deriving Repr, DecidableEq

/-- Whether the Python exception modelled by this error is a `ValueError`
(as opposed to the custom `MeterReadingError` and `BillingError`
hierarchies).  The `except ValueError` handler in
`ConsumptionCalc.calculate` only wraps this subset. -/
def CalcError.isValueError : CalcError → Bool
  | .meterNotActive _ => false
  | .insufficientData _ => false
  | .noActiveMeters => false
  | .meterPeriodEmpty _ => false
  | .meterFailure _ _ => false
  | _ => true

/-- Result of `MeterReadingManager.get_reading_at_date`
(the `MeterReadingAtDate` named tuple).  The `meter` and `time` fields and
the textual `interpolation_formula` are omitted; `calculated_reading` is
total here because every successful branch of the source sets it. -/
structure MeterReadingAtDate where
  date : Date
  calculatedReading : ℚ
  isExact : Bool
  readingBefore : Option MeterReading
  readingAfter : Option MeterReading
  daysTotal : Option ℤ := none
  daysToTarget : Option ℤ := none
  dailyConsumption : Option ℚ := none
  deriving Repr, DecidableEq

/-- The queryset `filter(meter=..., date=target).first()`: first stored
reading carrying exactly the target date. -/
def findExactReading (readings : List MeterReading) (target : Date) :
    Option MeterReading :=
  readings.find? (fun r => r.date = target)

/-- The queryset `filter(date__lt=target).order_by('-date').first()`:
latest stored reading strictly before the target date. -/
def findReadingBefore (readings : List MeterReading) (target : Date) :
    Option MeterReading :=
  (readings.filter (fun r => r.date < target)).foldl
    (fun acc r =>
      match acc with
      | none => some r
      | some b => if r.date > b.date then some r else some b)
    none

/-- The queryset `filter(date__gt=target).order_by('date').first()`:
earliest stored reading strictly after the target date. -/
def findReadingAfter (readings : List MeterReading) (target : Date) :
    Option MeterReading :=
  (readings.filter (fun r => target < r.date)).foldl
    (fun acc r =>
      match acc with
      | none => some r
      | some a => if r.date < a.date then some r else some a)
    none

/-- `MeterReadingManager.get_reading_at_date` (`meter_reading.py`):
exact reading if stored, otherwise linear interpolation between the
nearest readings strictly before and strictly after the target date. -/
def get_reading_at_date (meter : Meter) (target : Date) :
    Except CalcError MeterReadingAtDate :=
  if target < meter.buildInDate then
    .error (.meterNotActive target)
  else if meter.outOfOrderDate.any (fun d => target > d) then
    .error (.meterNotActive target)
  else
    match findExactReading meter.readings target with
    | some exact =>
        .ok { date := target
              calculatedReading := exact.value
              isExact := true
              readingBefore := some exact
              readingAfter := some exact }
    | none =>
        match findReadingBefore meter.readings target,
              findReadingAfter meter.readings target with
        | some b, some a =>
            let daysTotal : ℤ := a.date - b.date
            let daysToTarget : ℤ := target - b.date
            if 0 < daysTotal then
              let dailyConsumption : ℚ := (a.value - b.value) / (daysTotal : ℚ)
              .ok { date := target
                    calculatedReading :=
                      b.value + dailyConsumption * (daysToTarget : ℚ)
                    isExact := false
                    readingBefore := some b
                    readingAfter := some a
                    daysTotal := some daysTotal
                    daysToTarget := some daysToTarget
                    dailyConsumption := some dailyConsumption }
            else
              .ok { date := target
                    calculatedReading := b.value
                    isExact := false
                    readingBefore := some b
                    readingAfter := some a
                    daysTotal := some daysTotal
                    daysToTarget := some daysToTarget
                    dailyConsumption := some 0 }
        | some _, none => .error (.insufficientData target)
        | none, some _ => .error (.insufficientData target)
        | none, none => .error (.insufficientData target)

/-- The accumulator of `findReadingBefore` only ever holds a list element
(or its initial value). -/
theorem foldl_later_mem (l : List MeterReading) (acc : Option MeterReading)
    (b : MeterReading)
    (h : l.foldl
      (fun acc r =>
        match acc with
        | none => some r
        | some b => if r.date > b.date then some r else some b) acc = some b) :
    b ∈ l ∨ acc = some b := by
  induction l generalizing acc with
  | nil => exact Or.inr h
  | cons x xs ih =>
    simp only [List.foldl_cons] at h
    rcases ih _ h with hmem | hacc
    · exact Or.inl (List.mem_cons_of_mem _ hmem)
    · cases acc with
      | none =>
        simp only at hacc
        cases hacc
        exact Or.inl (List.mem_cons_self _ _)
      | some y =>
        simp only at hacc
        by_cases hxy : x.date > y.date
        · rw [if_pos hxy] at hacc
          cases hacc
          exact Or.inl (List.mem_cons_self _ _)
        · rw [if_neg hxy] at hacc
          exact Or.inr hacc

/-- The accumulator of `findReadingAfter` only ever holds a list element
(or its initial value). -/
theorem foldl_earlier_mem (l : List MeterReading) (acc : Option MeterReading)
    (a : MeterReading)
    (h : l.foldl
      (fun acc r =>
        match acc with
        | none => some r
        | some a => if r.date < a.date then some r else some a) acc = some a) :
    a ∈ l ∨ acc = some a := by
  induction l generalizing acc with
  | nil => exact Or.inr h
  | cons x xs ih =>
    simp only [List.foldl_cons] at h
    rcases ih _ h with hmem | hacc
    · exact Or.inl (List.mem_cons_of_mem _ hmem)
    · cases acc with
      | none =>
        simp only at hacc
        cases hacc
        exact Or.inl (List.mem_cons_self _ _)
      | some y =>
        simp only at hacc
        by_cases hxy : x.date < y.date
        · rw [if_pos hxy] at hacc
          cases hacc
          exact Or.inl (List.mem_cons_self _ _)
        · rw [if_neg hxy] at hacc
          exact Or.inr hacc

/-- A reading found by `findReadingBefore` is a stored reading strictly
before the target date. -/
theorem findReadingBefore_spec (readings : List MeterReading) (t : Date)
    (b : MeterReading) (h : findReadingBefore readings t = some b) :
    b ∈ readings ∧ b.date < t := by
  unfold findReadingBefore at h
  rcases foldl_later_mem _ _ _ h with hmem | hacc
  · rw [List.mem_filter] at hmem
    exact ⟨hmem.1, by simpa using hmem.2⟩
  · cases hacc

/-- A reading found by `findReadingAfter` is a stored reading strictly
after the target date. -/
theorem findReadingAfter_spec (readings : List MeterReading) (t : Date)
    (a : MeterReading) (h : findReadingAfter readings t = some a) :
    a ∈ readings ∧ t < a.date := by
  unfold findReadingAfter at h
  rcases foldl_earlier_mem _ _ _ h with hmem | hacc
  · rw [List.mem_filter] at hmem
    exact ⟨hmem.1, by simpa using hmem.2⟩
  · cases hacc

/-- C1: for a target date inside the meter's active window, the resolver
returns the stored reading with exact=true when a reading exists on exactly
that date; otherwise, when stored readings strictly before and strictly
after the date both exist, it returns the linear interpolation
before.value + (after.value - before.value) * (target - before.date) /
(after.date - before.date). -/
theorem get_reading_at_date_spec (m : Meter) (t : Date)
    (hlo : m.buildInDate ≤ t)
    (hhi : ∀ d ∈ m.outOfOrderDate, t ≤ d)
    (huniq : ∀ r1 ∈ m.readings, ∀ r2 ∈ m.readings, r1.date = r2.date → r1 = r2) :
    (∀ r ∈ m.readings, r.date = t →
      (get_reading_at_date m t).map
          (fun res => (res.isExact, res.calculatedReading)) = .ok (true, r.value)) ∧
    (∀ b a, findExactReading m.readings t = none →
      findReadingBefore m.readings t = some b →
      findReadingAfter m.readings t = some a →
      (get_reading_at_date m t).map
          (fun res => (res.isExact, res.calculatedReading)) =
        .ok (false,
          b.value + (a.value - b.value) * ((t : ℚ) - (b.date : ℚ)) /
            ((a.date : ℚ) - (b.date : ℚ)))) := by
  have hif1 : ¬ t < m.buildInDate := not_lt.mpr hlo
  have hif2 : m.outOfOrderDate.any (fun d => t > d) = false := by
    cases hout : m.outOfOrderDate with
    | none => rfl
    | some d =>
      have := hhi d (by rw [hout]; rfl)
      simp [Option.any, not_lt.mpr this]
  constructor
  · intro r hr hrt
    have hsome : (m.readings.find? (fun r => r.date = t)).isSome := by
      rw [List.find?_isSome]
      exact ⟨r, hr, by simp [hrt]⟩
    rcases Option.isSome_iff_exists.mp hsome with ⟨r', hr'⟩
    have hr'mem : r' ∈ m.readings := List.mem_of_find?_eq_some hr'
    have hr'date : r'.date = t := by
      have := List.find?_some hr'
      simpa using this
    have hval : r' = r := huniq r' hr'mem r hr (by rw [hr'date, hrt])
    unfold get_reading_at_date
    rw [if_neg hif1, hif2]
    simp only [Bool.false_eq_true, if_false]
    unfold findExactReading
    rw [hr', hval]
    rfl
  · intro b a hexact hb ha
    have hbd := (findReadingBefore_spec _ _ _ hb).2
    have had := (findReadingAfter_spec _ _ _ ha).2
    have hdt : (0 : ℤ) < a.date - b.date := sub_pos.mpr (hbd.trans had)
    unfold get_reading_at_date
    rw [if_neg hif1, hif2]
    simp only [Bool.false_eq_true, if_false]
    rw [hexact, hb, ha]
    dsimp only
    rw [if_pos hdt]
    simp only [Except.map, Except.ok.injEq, Prod.mk.injEq, true_and]
    have hdtq : ((a.date : ℚ) - (b.date : ℚ)) ≠ 0 := by
      have : (0 : ℚ) < (a.date : ℚ) - (b.date : ℚ) := by
        exact_mod_cast hdt
      linarith
    push_cast
    field_simp

/-- Concrete meter of the specification example: readings 100 on day 0 and
200 on day 10. -/
def meterExampleC1 : Meter :=
  { meterNumber := "W1"
    buildInDate := 0
    outOfOrderDate := none
    readings := [⟨0, 100⟩, ⟨10, 200⟩] }

/-- C1 witness: resolving day 5 on the example meter yields the
interpolated value 150 (the exact midpoint), via the theorem. -/
theorem get_reading_at_date_spec_witness :
    (get_reading_at_date meterExampleC1 5).map
        (fun res => (res.isExact, res.calculatedReading)) = .ok (false, 150) := by
  have h := (get_reading_at_date_spec meterExampleC1 5 (by decide)
      (by intro d hd; simp [meterExampleC1] at hd) (by decide)).2
      ⟨0, 100⟩ ⟨10, 200⟩ (by decide) (by decide) (by decide)
  rw [h]
  norm_num

/-- One `MeterPlace` row (`meter_place.py`) together with its meters
(the `meter_set` reverse foreign key). -/
structure MeterPlace where
  type : String
  name : String
  meters : List Meter
  deriving Repr, DecidableEq

/-- The `unit` property of `MeterPlace`: physical unit derived from the
meter type via `unit_mapping` (default empty string). -/
def MeterPlace.unit (mp : MeterPlace) : String :=
  if mp.type = "EL" then "kWh"
  else if mp.type = "GA" then "kWh"
  else if mp.type = "KW" then "m³"
  else if mp.type = "WW" then "m³"
  else if mp.type = "HE" then "kWh"
  else if mp.type = "OI" then "Liter"
  else ""

/-- One `MeterPeriod` named tuple of `MeterPlace.calculate_billing`. -/
structure MeterPeriod where
  meter : Meter
  periodStart : Date
  periodEnd : Date
  daysActive : ℤ
  startReading : MeterReadingAtDate
  endReading : MeterReadingAtDate
  consumption : ℚ
  deriving Repr, DecidableEq

/-- The `BillingCalculation` named tuple of `MeterPlace.calculate_billing`. -/
structure BillingCalculation where
  meterPlace : MeterPlace
  billingPeriodStart : Date
  billingPeriodEnd : Date
  meterPeriods : List MeterPeriod
  totalConsumption : ℚ
  totalDaysActive : ℤ
  deriving Repr, DecidableEq

/-- The meter-selection predicate of `calculate_billing`:
`build_in_date <= end AND (out_of_order_date is null OR >= start)`. -/
def activeMeterFilter (s e : Date) (m : Meter) : Bool :=
  m.buildInDate ≤ e &&
    (match m.outOfOrderDate with
     | none => true
     | some d => s ≤ d)

/-- The selected meters of `calculate_billing`: the queryset filter followed
by `order_by('build_in_date')`. -/
def selectMeters (mp : MeterPlace) (s e : Date) : List Meter :=
  List.insertionSort (fun m1 m2 => m1.buildInDate ≤ m2.buildInDate)
    (mp.meters.filter (activeMeterFilter s e))

/-- The clipped sub-period start for one meter:
`meter_start = max(start_date, meter.build_in_date)`. -/
def meterStartClip (s : Date) (m : Meter) : Date := max s m.buildInDate

/-- The clipped sub-period end for one meter: `end_date`, lowered to
`out_of_order_date` when that is set. -/
def meterEndClip (e : Date) (m : Meter) : Date :=
  match m.outOfOrderDate with
  | some d => min e d
  | none => e

/-- The inclusive day count of the clipped sub-period:
`days_active = (meter_end - meter_start).days + 1`. -/
def meterDaysActive (s e : Date) (m : Meter) : ℤ :=
  meterEndClip e m - meterStartClip s m + 1

/-- A meter for which the per-meter body of `calculate_billing` succeeds:
positive clipped day count and both endpoint readings resolvable. -/
def meterComputes (s e : Date) (m : Meter) : Prop :=
  0 < meterDaysActive s e m ∧
  (∃ r, get_reading_at_date m (meterStartClip s m) = .ok r) ∧
  (∃ r, get_reading_at_date m (meterEndClip e m) = .ok r)

/-- The per-meter loop of `calculate_billing`: clip the sub-period, check
its day count, resolve both endpoint readings (wrapping resolver failures
into `MeterCalculationError` with the meter identity), and accumulate
consumption and active days.  The source's defensive check for a `None`
`calculated_reading` is unreachable here because every successful resolver
branch sets the value. -/
def billing_loop (s e : Date) : List Meter → Except CalcError (List MeterPeriod × ℚ × ℤ)
  | [] => .ok ([], 0, 0)
  | m :: rest =>
    let meterStart := meterStartClip s m
    let meterEnd := meterEndClip e m
    let daysActive := meterDaysActive s e m
    if daysActive ≤ 0 then
      .error (.meterPeriodEmpty m.meterNumber)
    else
      match get_reading_at_date m meterStart with
      | .error err => .error (.meterFailure m.meterNumber err)
      | .ok startReading =>
        match get_reading_at_date m meterEnd with
        | .error err => .error (.meterFailure m.meterNumber err)
        | .ok endReading =>
          let consumption :=
            endReading.calculatedReading - startReading.calculatedReading
          match billing_loop s e rest with
          | .error err => .error err
          | .ok (ps, totalC, totalD) =>
            .ok (⟨m, meterStart, meterEnd, daysActive, startReading,
                  endReading, consumption⟩ :: ps,
                 consumption + totalC, daysActive + totalD)

/-- `MeterPlace.calculate_billing` (`meter_place.py`). -/
def calculate_billing (mp : MeterPlace) (s e : Date) :
    Except CalcError BillingCalculation :=
  if e ≤ s then
    .error (.invalidRange mp.name)
  else
    match selectMeters mp s e with
    | [] => .error .noActiveMeters
    | m :: rest =>
      match billing_loop s e (m :: rest) with
      | .error err => .error err
      | .ok (ps, tc, td) => .ok ⟨mp, s, e, ps, tc, td⟩

/-- Errors produced by the per-meter loop are always
`MeterCalculationError`-kind errors carrying a meter identity. -/
theorem billing_loop_error_kind (s e : Date) (l : List Meter) (err : CalcError)
    (h : billing_loop s e l = .error err) :
    (∃ n, err = .meterPeriodEmpty n) ∨ (∃ n e', err = .meterFailure n e') := by
  induction l with
  | nil => simp [billing_loop] at h
  | cons m rest ih =>
    unfold billing_loop at h
    by_cases hd : meterDaysActive s e m ≤ 0
    · rw [if_pos hd] at h
      exact Or.inl ⟨m.meterNumber, by cases h; rfl⟩
    · rw [if_neg hd] at h
      cases hstart : get_reading_at_date m (meterStartClip s m) with
      | error e1 =>
        rw [hstart] at h
        exact Or.inr ⟨m.meterNumber, e1, by cases h; rfl⟩
      | ok r1 =>
        rw [hstart] at h
        cases hend : get_reading_at_date m (meterEndClip e m) with
        | error e2 =>
          rw [hend] at h
          exact Or.inr ⟨m.meterNumber, e2, by cases h; rfl⟩
        | ok r2 =>
          rw [hend] at h
          cases hrec : billing_loop s e rest with
          | error e3 =>
            rw [hrec] at h
            cases h
            exact ih hrec
          | ok triple =>
            rw [hrec] at h
            obtain ⟨ps, tc, td⟩ := triple
            cases h

/-- On success the per-meter loop visits exactly its input meters, in
order, with the clipped sub-periods and positive day counts. -/
theorem billing_loop_ok_spec (s e : Date) (l : List Meter)
    (ps : List MeterPeriod) (tc : ℚ) (td : ℤ)
    (h : billing_loop s e l = .ok (ps, tc, td)) :
    ps.map MeterPeriod.meter = l ∧
    ∀ p ∈ ps,
      p.periodStart = meterStartClip s p.meter ∧
      p.periodEnd = meterEndClip e p.meter ∧
      p.daysActive = meterDaysActive s e p.meter ∧
      0 < p.daysActive := by
  induction l generalizing ps tc td with
  | nil =>
    simp only [billing_loop, Except.ok.injEq] at h
    cases h
    simp
  | cons m rest ih =>
    unfold billing_loop at h
    by_cases hd : meterDaysActive s e m ≤ 0
    · rw [if_pos hd] at h
      cases h
    · rw [if_neg hd] at h
      cases hstart : get_reading_at_date m (meterStartClip s m) with
      | error e1 => rw [hstart] at h; cases h
      | ok r1 =>
        rw [hstart] at h
        cases hend : get_reading_at_date m (meterEndClip e m) with
        | error e2 => rw [hend] at h; cases h
        | ok r2 =>
          rw [hend] at h
          cases hrec : billing_loop s e rest with
          | error e3 => rw [hrec] at h; cases h
          | ok triple =>
            obtain ⟨ps', tc', td'⟩ := triple
            rw [hrec] at h
            simp only [Except.ok.injEq, Prod.mk.injEq] at h
            obtain ⟨hps, -, -⟩ := h
            obtain ⟨hmap, hall⟩ := ih ps' tc' td' hrec
            subst hps
            constructor
            · simp [hmap]
            · intro p hp
              rcases List.mem_cons.mp hp with hp | hp
              · subst hp
                exact ⟨rfl, rfl, rfl, lt_of_not_ge hd⟩
              · exact hall p hp

/-- When every meter before `m` in the processing order computes and `m`'s
clipped day count is non-positive, the loop fails with the
`MeterCalculationError`-kind error naming `m`. -/
theorem billing_loop_first_bad (s e : Date) (pre : List Meter) (m : Meter)
    (post : List Meter)
    (hpre : ∀ m2 ∈ pre, meterComputes s e m2)
    (hm : meterDaysActive s e m ≤ 0) :
    billing_loop s e (pre ++ m :: post) = .error (.meterPeriodEmpty m.meterNumber) := by
  induction pre with
  | nil =>
    rw [List.nil_append]
    unfold billing_loop
    rw [if_pos hm]
  | cons m2 rest ih =>
    have hm2 := hpre m2 (List.mem_cons_self _ _)
    obtain ⟨hd2, ⟨r1, hr1⟩, ⟨r2, hr2⟩⟩ := hm2
    have ihrec := ih (fun x hx => hpre x (List.mem_cons_of_mem _ hx))
    have hd2' : ¬ meterDaysActive s e m2 ≤ 0 := not_le.mpr hd2
    rw [List.cons_append]
    unfold billing_loop
    rw [if_neg hd2', hr1]
    dsimp only
    rw [hr2]
    dsimp only
    rw [ihrec]

/-- C5: for a period with start < end, the billing calculation selects
exactly the meters with build_in_date ≤ end and out_of_order_date null or
≥ start, in build_in_date order; it fails with NoActiveMeters when none
qualifies, and it fails with the MeterCalculationError-kind error carrying
the meter's identity for the first selected meter whose clipped sub-period
has a non-positive day count. -/
theorem calculate_billing_spec (mp : MeterPlace) (s e : Date) (h : s < e) :
    (∀ m, m ∈ selectMeters mp s e ↔
        (m ∈ mp.meters ∧ m.buildInDate ≤ e ∧ ∀ d ∈ m.outOfOrderDate, s ≤ d)) ∧
    (selectMeters mp s e).Sorted (fun m1 m2 => m1.buildInDate ≤ m2.buildInDate) ∧
    (selectMeters mp s e = [] ↔ calculate_billing mp s e = .error .noActiveMeters) ∧
    (∀ bc, calculate_billing mp s e = .ok bc →
      bc.meterPeriods.map MeterPeriod.meter = selectMeters mp s e ∧
      ∀ p ∈ bc.meterPeriods,
        p.periodStart = meterStartClip s p.meter ∧
        p.periodEnd = meterEndClip e p.meter ∧
        p.daysActive = meterDaysActive s e p.meter ∧
        0 < p.daysActive) ∧
    (∀ pre m post, selectMeters mp s e = pre ++ m :: post →
      (∀ m2 ∈ pre, meterComputes s e m2) →
      meterDaysActive s e m ≤ 0 →
      calculate_billing mp s e = .error (.meterPeriodEmpty m.meterNumber)) := by
  have hnotle : ¬ e ≤ s := not_le.mpr h
  refine ⟨?_, ?_, ?_, ?_, ?_⟩
  · intro m
    unfold selectMeters
    rw [List.Perm.mem_iff (List.perm_insertionSort _ _), List.mem_filter]
    unfold activeMeterFilter
    constructor
    · rintro ⟨hmem, hpred⟩
      simp only [Bool.and_eq_true, decide_eq_true_eq] at hpred
      refine ⟨hmem, hpred.1, ?_⟩
      intro d hd
      rcases hpred with ⟨-, h2⟩
      cases hood : m.outOfOrderDate with
      | none => rw [hood] at hd; cases hd
      | some d' =>
        rw [hood] at hd h2
        cases hd
        simpa using h2
    · rintro ⟨hmem, h1, h2⟩
      refine ⟨hmem, ?_⟩
      simp only [Bool.and_eq_true, decide_eq_true_eq]
      refine ⟨h1, ?_⟩
      cases hood : m.outOfOrderDate with
      | none => simp
      | some d' => simpa using h2 d' (by rw [hood]; rfl)
  · haveI : IsTotal Meter (fun m1 m2 => m1.buildInDate ≤ m2.buildInDate) :=
      ⟨fun a b => le_total a.buildInDate b.buildInDate⟩
    haveI : IsTrans Meter (fun m1 m2 => m1.buildInDate ≤ m2.buildInDate) :=
      ⟨fun a b c hab hbc => le_trans hab hbc⟩
    exact List.sorted_insertionSort _ _
  · constructor
    · intro hsel
      unfold calculate_billing
      rw [if_neg hnotle, hsel]
    · intro hres
      cases hsel : selectMeters mp s e with
      | nil => rfl
      | cons m rest =>
        unfold calculate_billing at hres
        rw [if_neg hnotle, hsel] at hres
        dsimp only at hres
        cases hloop : billing_loop s e (m :: rest) with
        | error err =>
          rw [hloop] at hres
          dsimp only at hres
          cases hres
          rcases billing_loop_error_kind s e _ _ hloop with ⟨n, hn⟩ | ⟨n, e', hn⟩ <;>
            cases hn
        | ok triple =>
          obtain ⟨ps, tc, td⟩ := triple
          rw [hloop] at hres
          dsimp only at hres
          cases hres
  · intro bc hbc
    unfold calculate_billing at hbc
    rw [if_neg hnotle] at hbc
    cases hsel : selectMeters mp s e with
    | nil =>
      rw [hsel] at hbc
      dsimp only at hbc
      cases hbc
    | cons m rest =>
      rw [hsel] at hbc
      dsimp only at hbc
      cases hloop : billing_loop s e (m :: rest) with
      | error err =>
        rw [hloop] at hbc
        dsimp only at hbc
        cases hbc
      | ok triple =>
        obtain ⟨ps, tc, td⟩ := triple
        rw [hloop] at hbc
        dsimp only at hbc
        cases hbc
        exact billing_loop_ok_spec s e _ _ _ _ hloop
  · intro pre m post hsel hpre hm
    unfold calculate_billing
    rw [if_neg hnotle, hsel]
    have hloop := billing_loop_first_bad s e pre m post hpre hm
    cases hpre2 : pre with
    | nil =>
      rw [hpre2] at hloop
      rw [List.nil_append] at hloop ⊢
      dsimp only
      rw [hloop]
    | cons m0 rest =>
      rw [hpre2] at hloop
      rw [List.cons_append] at hloop ⊢
      dsimp only
      rw [hloop]

/-- Concrete meter place for the C5 witness: one superseded meter and its
replacement, both carrying endpoint readings. -/
def placeExampleC5 : MeterPlace :=
  { type := "EL"
    name := "Allgemeinstrom"
    meters :=
      [{ meterNumber := "M2"
         buildInDate := 50
         outOfOrderDate := none
         readings := [⟨50, 0⟩, ⟨100, 60⟩] },
       { meterNumber := "M1"
         buildInDate := 0
         outOfOrderDate := some 50
         readings := [⟨0, 10⟩, ⟨50, 90⟩] }] }

/-- C5 witness: on the concrete place, the selection picks both meters in
build-in order, and the calculation reports them with their clipped
sub-periods, via the theorem. -/
theorem calculate_billing_spec_witness :
    (selectMeters placeExampleC5 0 100).map Meter.meterNumber = ["M1", "M2"] ∧
    ∀ bc, calculate_billing placeExampleC5 0 100 = .ok bc →
      bc.meterPeriods.map MeterPeriod.meter = selectMeters placeExampleC5 0 100 := by
  constructor
  · decide
  · intro bc hbc
    exact ((calculate_billing_spec placeExampleC5 0 100 (by decide)).2.2.2.1 bc hbc).1

/-- One entry of a calculation's audit trail (the `CalculationStep` named
tuple of `consumption_calc.py`).  Only the fields consumed by the verified
computations (`step_type`, `result`, `unit`) are modelled; the purely
presentational operand/label/display fields are omitted. -/
structure CalculationStep where
  stepType : String
  result : ℚ
  unit : String
  deriving Repr, DecidableEq

mutual
/-- A `ConsumptionCalc` row (`consumption_calc.py`) with its
`ConsumptionCalcArgument` rows.  The argument list is kept in `position`
order (the `Meta.ordering` of the argument model).  The deprecated
three-argument legacy columns are retained by the source only for
migration and are not part of the evaluated model. -/
inductive ConsumptionCalc where
  | mk (name : String) (operator : String) (startDate : Date)
      (endDate : Option Date) (args : CalcArgList)

/-- The ordered argument rows of a calculation (a specialised list type so
that the evaluation below is structurally recursive). -/
inductive CalcArgList where
  | nil
  | cons (head : CalcArgument) (tail : CalcArgList)

/-- One `ConsumptionCalcArgument` row: position, the three optional value
sources (of which exactly one should be set), unit and explanation. -/
inductive CalcArgument where
  | mk (position : ℕ) (meterPlace : Option MeterPlace) (value : Option ℚ)
      (nestedCalc : Option ConsumptionCalc) (unit : String)
      (explanation : String)
end

/-- Name of a calculation. -/
def ConsumptionCalc.name : ConsumptionCalc → String
  | .mk n _ _ _ _ => n

/-- Combining operator of a calculation. -/
def ConsumptionCalc.operator : ConsumptionCalc → String
  | .mk _ op _ _ _ => op

/-- Validity-window start of a calculation. -/
def ConsumptionCalc.startDate : ConsumptionCalc → Date
  | .mk _ _ sd _ _ => sd

/-- Validity-window end of a calculation (open when absent). -/
def ConsumptionCalc.endDate : ConsumptionCalc → Option Date
  | .mk _ _ _ ed _ => ed

/-- Argument rows of a calculation. -/
def ConsumptionCalc.args : ConsumptionCalc → CalcArgList
  | .mk _ _ _ _ a => a

/-- Conversion of the specialised argument list to an ordinary list. -/
def CalcArgList.toList : CalcArgList → List CalcArgument
  | .nil => []
  | .cons a t => a :: t.toList

/-- Position column of an argument row. -/
def CalcArgument.position : CalcArgument → ℕ
  | .mk p _ _ _ _ _ => p

/-- Optional meter-place source of an argument row. -/
def CalcArgument.meterPlace : CalcArgument → Option MeterPlace
  | .mk _ mp _ _ _ _ => mp

/-- Optional fixed-value source of an argument row. -/
def CalcArgument.value : CalcArgument → Option ℚ
  | .mk _ _ v _ _ _ => v

/-- Optional nested-calculation source of an argument row. -/
def CalcArgument.nestedCalc : CalcArgument → Option ConsumptionCalc
  | .mk _ _ _ n _ _ => n

/-- Explicit unit of an argument row (may be empty). -/
def CalcArgument.unit : CalcArgument → String
  | .mk _ _ _ _ u _ => u

mutual
/-- The `ConsumptionResult` named tuple: final value plus audit data.
The `success`/`error_message` fields are subsumed by `Except`. -/
inductive ConsumptionResult where
  | mk (calcName : String) (periodStart : Date) (periodEnd : Date)
      (argumentResults : List ArgumentResult) (finalResult : ℚ)
      (calculationSteps : List CalculationStep)
      (formulaDisplay : String) (formulaResultDisplay : String)

/-- The `ArgumentResult` named tuple: evaluated value of one argument and
its provenance. -/
inductive ArgumentResult where
  | mk (sourceType : String) (source : Option MeterPlace) (value : ℚ)
      (billingCalculation : Option BillingCalculation)
      (nestedResult : Option ConsumptionResult)
end

/-- Name recorded in a result. -/
def ConsumptionResult.calcName : ConsumptionResult → String
  | .mk n _ _ _ _ _ _ _ => n

/-- Final value of a result. -/
def ConsumptionResult.finalResult : ConsumptionResult → ℚ
  | .mk _ _ _ _ v _ _ _ => v

/-- Argument results of a result. -/
def ConsumptionResult.argumentResults : ConsumptionResult → List ArgumentResult
  | .mk _ _ _ rs _ _ _ _ => rs

/-- Audit-trail steps of a result. -/
def ConsumptionResult.calculationSteps : ConsumptionResult → List CalculationStep
  | .mk _ _ _ _ _ steps _ _ => steps

/-- Compact formula string of a result. -/
def ConsumptionResult.formulaDisplay : ConsumptionResult → String
  | .mk _ _ _ _ _ _ fd _ => fd

/-- Formatted final value of a result. -/
def ConsumptionResult.formulaResultDisplay : ConsumptionResult → String
  | .mk _ _ _ _ _ _ _ frd => frd

/-- Source type tag of an argument result. -/
def ArgumentResult.sourceType : ArgumentResult → String
  | .mk st _ _ _ _ => st

/-- Meter-place provenance of an argument result. -/
def ArgumentResult.source : ArgumentResult → Option MeterPlace
  | .mk _ src _ _ _ => src

/-- Evaluated value of an argument result. -/
def ArgumentResult.value : ArgumentResult → ℚ
  | .mk _ _ v _ _ => v

/-- Nested result of an argument result. -/
def ArgumentResult.nestedResult : ArgumentResult → Option ConsumptionResult
  | .mk _ _ _ _ nr => nr

/-- `ConsumptionCalc._apply_operator`: ordinary arithmetic with a
`ValueError` on division by zero and on unknown operators; the operator
`' '` (NONE) returns the first operand unchanged. -/
def apply_operator (operand1 : ℚ) (operator : String) (operand2 : ℚ) :
    Except CalcError ℚ :=
  if operator = "+" then .ok (operand1 + operand2)
  else if operator = "-" then .ok (operand1 - operand2)
  else if operator = "*" then .ok (operand1 * operand2)
  else if operator = "/" then
    if operand2 = 0 then .error .divisionByZero
    else .ok (operand1 / operand2)
  else if operator = " " then .ok operand1
  else .error (.unknownOperator operator)

/-- `ConsumptionCalc._combine_units`: unit propagation for one combine
step. -/
def combine_units (unit1 unit2 operator : String) : String :=
  if operator = "+" ∨ operator = "-" then
    if unit1 = unit2 then unit1
    else if unit1 ≠ "" ∧ unit2 = "" then unit1
    else if unit2 ≠ "" ∧ unit1 = "" then unit2
    else if unit1 ≠ "" ∧ unit2 ≠ "" then unit1 ++ "+" ++ unit2
    else ""
  else if operator = "*" then
    if unit2 = "" ∨ unit2 = "%" then unit1
    else if unit1 = "" ∨ unit1 = "%" then unit2
    else if unit1 ≠ "" ∧ unit2 ≠ "" then unit1 ++ "×" ++ unit2
    else ""
  else if operator = "/" then
    if unit2 = "" ∨ unit2 = "%" then unit1
    else if unit1 ≠ "" ∧ unit2 ≠ "" then
      if unit1 = unit2 then "" else unit1 ++ "/" ++ unit2
    else if unit1 ≠ "" then unit1
    else ""
  else if unit1 ≠ "" then unit1
  else ""

/-- The reversed-step scan inside `_get_unit_from_arg_object`: unit of the
last step whose type is operation or result. -/
def lastOpUnit (steps : List CalculationStep) : String :=
  match steps.reverse.find?
      (fun st => st.stepType = "operation" ∨ st.stepType = "result") with
  | some st => st.unit
  | none => ""

/-- `ConsumptionCalc._get_unit_from_arg_object`: unit of one argument; a
percent argument reports the empty unit because its value was already
divided by 100. -/
def get_unit_from_arg_object (arg : CalcArgument) (r : ArgumentResult) : String :=
  if arg.unit = "%" then ""
  else if arg.unit ≠ "" then arg.unit
  else if r.sourceType = "meter_place" ∧ r.source.isSome then
    match r.source with
    | some mp => mp.unit
    | none => ""
  else if r.sourceType = "nested_calculation" ∧ r.nestedResult.isSome then
    match r.nestedResult with
    | some nr => lastOpUnit nr.calculationSteps
    | none => ""
  else ""

/-- Round-half-to-even on `ℚ`, the rounding of both Python's `round` and
the `.1f` format used by the display code (exact-arithmetic model of the
float rounding). -/
def roundHalfEven (q : ℚ) : ℤ :=
  if q - ⌊q⌋ < 1/2 then ⌊q⌋
  else if (1 : ℚ)/2 < q - ⌊q⌋ then ⌊q⌋ + 1
  else if 2 ∣ ⌊q⌋ then ⌊q⌋ else ⌊q⌋ + 1

/-- Thousands grouping on a reversed digit list: after every three digits
a separator, as the format specification with a comma group does (the
separator is already the post-swap dot of `format_number`). -/
def groupThousandsRev : List Char → List Char
  | a :: b :: c :: d :: rest => a :: b :: c :: '.' :: groupThousandsRev (d :: rest)
  | l => l

/-- Whitespace strip on both ends, as the Python string strip method used
by the display code (written over the character list so that it evaluates
by kernel reduction). -/
def strip_ws (s : String) : String :=
  String.mk (((s.toList.dropWhile Char.isWhitespace).reverse.dropWhile
    Char.isWhitespace).reverse)

/-- The local `format_number` of `_build_formula_display`: one decimal
digit, comma as the decimal separator, dot as the thousands separator
(the source formats with an f-string and then swaps the separators). -/
def format_number (v : ℚ) : String :=
  let n := roundHalfEven (v * 10)
  let m := n.natAbs
  let intDigits := (toString (m / 10)).toList
  let intStr := String.mk (groupThousandsRev intDigits.reverse).reverse
  (if n < 0 then "-" else "") ++ intStr ++ "," ++ toString (m % 10)

/-- `ConsumptionCalc._build_formula_display`: the compact formula string
and the formatted final value. -/
def build_formula_display (operator : String)
    (pairs : List (CalcArgument × ArgumentResult)) (result : ℚ)
    (resultUnit : String) : String × String :=
  let parts := pairs.map (fun p =>
    let displayValue := if p.1.unit = "%" then p.2.value * 100 else p.2.value
    let displayUnit :=
      if p.1.unit = "%" then "%" else get_unit_from_arg_object p.1 p.2
    let plain := strip_ws (format_number displayValue ++ " " ++ displayUnit)
    if p.2.sourceType = "nested_calculation" ∧ p.2.nestedResult.isSome then
      match p.2.nestedResult with
      | some nr =>
          if nr.formulaDisplay ≠ "" then "(" ++ nr.formulaDisplay ++ ")"
          else plain
      | none => plain
    else plain)
  (String.intercalate (" " ++ operator ++ " ") parts,
   strip_ws (format_number result ++ " " ++ resultUnit))

/-- The combining loop of `ConsumptionCalc.calculate`: starting from the
first argument's value, apply the single operator with each further value
in turn, recording one operation step per application.  The unit of each
step combines the PREVIOUS ARGUMENT's unit with the current argument's
unit (the source indexes `calculation_steps[i-1]`, which at that point is
the previous argument step).  The source duplicates this loop verbatim in
its multiplication/division and addition/subtraction branches, so it is
embedded once. -/
def combine_loop (operator : String) :
    ℚ → String → List (ℚ × String) → Except CalcError (ℚ × List CalculationStep)
  | acc, _, [] => .ok (acc, [])
  | acc, prevUnit, (v, u) :: rest =>
    match apply_operator acc operator v with
    | .error err => .error err
    | .ok r =>
      match combine_loop operator r u rest with
      | .error err => .error err
      | .ok (fin, steps) =>
        .ok (fin, ⟨"operation", r, combine_units prevUnit u operator⟩ :: steps)

mutual
/-- `ConsumptionCalc.calculate` (`consumption_calc.py`): validate the
period against the validity window, evaluate every argument in position
order (wrapping a `ValueError` with the argument index and calculation
name), then combine the values with the single operator. -/
def calculate (c : ConsumptionCalc) (s e : Date) :
    Except CalcError ConsumptionResult :=
  match c with
  | .mk name operator startDate endDate args =>
    if e ≤ s then .error (.invalidRange name)
    else if s < startDate then .error (.invalidRange name)
    else if endDate.any (fun d => d < e) then .error (.invalidRange name)
    else
      match args with
      | .nil => .error (.noArguments name)
      | .cons a t =>
        match eval_arg_list name 0 (.cons a t) s e with
        | .error err => .error err
        | .ok pairs =>
          match pairs with
          | [] => .error (.noArguments name)
          | (a0, r0) :: prest =>
            let u0 := get_unit_from_arg_object a0 r0
            let tailData :=
              prest.map (fun p => (p.2.value, get_unit_from_arg_object p.1 p.2))
            match combine_loop operator r0.value u0 tailData with
            | .error err => .error err
            | .ok (result, opSteps) =>
              let argSteps := pairs.map (fun p =>
                CalculationStep.mk "argument" p.2.value
                  (get_unit_from_arg_object p.1 p.2))
              let preSteps := argSteps ++ opSteps
              let finalUnit :=
                match preSteps.getLast? with
                | some st => st.unit
                | none => ""
              let allSteps := preSteps ++ [⟨"result", result, finalUnit⟩]
              let fd := build_formula_display operator pairs result finalUnit
              .ok (.mk name s e (pairs.map Prod.snd) result allSteps fd.1 fd.2)

/-- The argument loop of `calculate`: evaluate each argument, pairing it
with its row; a `ValueError` is wrapped with the one-based argument index
and the calculation's name, other exception classes propagate bare. -/
def eval_arg_list (name : String) (i : ℕ) (args : CalcArgList) (s e : Date) :
    Except CalcError (List (CalcArgument × ArgumentResult)) :=
  match args with
  | .nil => .ok []
  | .cons a t =>
    match calculate_single_argument a s e with
    | .error err =>
        .error (if err.isValueError then .argumentFailure (i + 1) name err else err)
    | .ok r =>
      match eval_arg_list name (i + 1) t s e with
      | .error err => .error err
      | .ok rest => .ok ((a, r) :: rest)

/-- `ConsumptionCalc._calculate_single_argument`: nested calculation
first, then meter place, then fixed value (a percent fixed value is
divided by 100), otherwise the missing-source `ValueError`. -/
def calculate_single_argument (arg : CalcArgument) (s e : Date) :
    Except CalcError ArgumentResult :=
  match arg with
  | .mk pos mp v nested unit _ =>
    match nested with
    | some nc =>
      match calculate nc s e with
      | .error err => .error err
      | .ok nr => .ok (.mk "nested_calculation" none nr.finalResult none (some nr))
    | none =>
      match mp with
      | some place =>
        match calculate_billing place s e with
        | .error err => .error err
        | .ok bc =>
            .ok (.mk "meter_place" (some place) bc.totalConsumption (some bc) none)
      | none =>
        match v with
        | some q =>
            .ok (.mk "value" none (if unit = "%" then q / 100 else q) none none)
        | none => .error (.missingSource pos)
end

/-- The arithmetic content of the combining loop: the left fold of the
single operator over the argument values, starting from the first value. -/
def fold_values (operator : String) : ℚ → List ℚ → Except CalcError ℚ
  | v0, [] => .ok v0
  | v0, v :: rest =>
    match apply_operator v0 operator v with
    | .error err => .error err
    | .ok r => fold_values operator r rest

/-- The combining loop computes exactly the left fold of the operator
(the recorded steps do not influence the value). -/
theorem combine_loop_result (operator : String) (acc : ℚ) (u : String)
    (l : List (ℚ × String)) :
    (combine_loop operator acc u l).map Prod.fst =
      fold_values operator acc (l.map Prod.fst) := by
  induction l generalizing acc u with
  | nil => rfl
  | cons p rest ih =>
    obtain ⟨v, u2⟩ := p
    simp only [combine_loop, fold_values, List.map_cons]
    cases h : apply_operator acc operator v with
    | error err => rfl
    | ok r =>
      dsimp only
      rw [← ih r u2]
      cases hrec : combine_loop operator r u2 rest with
      | error e2 => rfl
      | ok pr =>
        obtain ⟨fin, steps⟩ := pr
        rfl

/-- The division branch of the operator application, written out. -/
theorem apply_operator_div (v0 v : ℚ) :
    apply_operator v0 "/" v =
      if v = 0 then .error .divisionByZero else .ok (v0 / v) := rfl

/-- Under the division operator the fold can only fail with the
division-by-zero error. -/
theorem fold_values_div_error (v0 : ℚ) (vs : List ℚ) (err : CalcError)
    (h : fold_values "/" v0 vs = .error err) : err = .divisionByZero := by
  induction vs generalizing v0 with
  | nil => cases h
  | cons v rest ih =>
    simp only [fold_values, apply_operator_div] at h
    by_cases hv : v = 0
    · rw [if_pos hv] at h
      dsimp only at h
      cases h
      rfl
    · rw [if_neg hv] at h
      dsimp only at h
      exact ih _ h

/-- C3: over a valid period with successfully evaluated arguments, the
result of a formula definition is the left fold of its single operator
over the argument values in position order; when the fold meets a zero
divisor under the division operator the calculation fails with the
DivisionByZero-kind error instead of returning a value; and the operator
none with exactly one argument returns exactly that argument's value. -/
theorem calculate_is_left_fold (c : ConsumptionCalc) (s e : Date)
    (h1 : s < e) (h2 : c.startDate ≤ s) (h3 : ∀ d ∈ c.endDate, e ≤ d)
    (a0 : CalcArgument) (r0 : ArgumentResult)
    (prest : List (CalcArgument × ArgumentResult))
    (hargs : eval_arg_list c.name 0 c.args s e = .ok ((a0, r0) :: prest)) :
    ((calculate c s e).map ConsumptionResult.finalResult =
      fold_values c.operator r0.value (prest.map (fun p => p.2.value))) ∧
    (∀ err,
      fold_values c.operator r0.value (prest.map (fun p => p.2.value)) = .error err →
      calculate c s e = .error err ∧ (c.operator = "/" → err = .divisionByZero)) ∧
    (c.operator = " " → prest = [] →
      (calculate c s e).map ConsumptionResult.finalResult = .ok r0.value) := by
  obtain ⟨name, operator, startDate, endDate, args⟩ := c
  simp only [ConsumptionCalc.name, ConsumptionCalc.operator, ConsumptionCalc.startDate,
    ConsumptionCalc.endDate, ConsumptionCalc.args] at h2 h3 hargs ⊢
  have hif1 : ¬ e ≤ s := not_le.mpr h1
  have hif2 : ¬ s < startDate := not_lt.mpr h2
  have hif3 : endDate.any (fun d => d < e) = false := by
    cases hcase : endDate with
    | none => rfl
    | some d =>
      have := h3 d (by rw [hcase]; rfl)
      simp [Option.any, not_lt.mpr this]
  cases hargscase : args with
  | nil =>
    rw [hargscase] at hargs
    simp only [eval_arg_list] at hargs
    cases hargs
  | cons a t =>
    rw [hargscase] at hargs
    have hcalc : calculate (.mk name operator startDate endDate (.cons a t)) s e =
        match combine_loop operator r0.value (get_unit_from_arg_object a0 r0)
            (prest.map (fun p => (p.2.value, get_unit_from_arg_object p.1 p.2))) with
        | .error err => .error err
        | .ok (result, opSteps) =>
          let argSteps := ((a0, r0) :: prest).map (fun p =>
            CalculationStep.mk "argument" p.2.value (get_unit_from_arg_object p.1 p.2))
          let preSteps := argSteps ++ opSteps
          let finalUnit :=
            match preSteps.getLast? with
            | some st => st.unit
            | none => ""
          let allSteps := preSteps ++ [⟨"result", result, finalUnit⟩]
          let fd := build_formula_display operator ((a0, r0) :: prest) result finalUnit
          .ok (.mk name s e (((a0, r0) :: prest).map Prod.snd) result allSteps fd.1 fd.2) := by
      unfold calculate
      rw [if_neg hif1, if_neg hif2, hif3]
      simp only [Bool.false_eq_true, if_false]
      rw [hargs]
    have hfold0 := combine_loop_result operator r0.value
      (get_unit_from_arg_object a0 r0)
      (prest.map (fun p => (p.2.value, get_unit_from_arg_object p.1 p.2)))
    rw [List.map_map] at hfold0
    have hfold : (combine_loop operator r0.value (get_unit_from_arg_object a0 r0)
        (prest.map (fun p => (p.2.value, get_unit_from_arg_object p.1 p.2)))).map
          Prod.fst =
        fold_values operator r0.value (prest.map (fun p => p.2.value)) := hfold0
    refine ⟨?_, ?_, ?_⟩
    · rw [hcalc, ← hfold]
      cases hloop : combine_loop operator r0.value (get_unit_from_arg_object a0 r0)
          (prest.map (fun p => (p.2.value, get_unit_from_arg_object p.1 p.2))) with
      | error err => rfl
      | ok pr =>
        obtain ⟨result, opSteps⟩ := pr
        rfl
    · intro err herr
      rw [herr] at hfold
      cases hloop : combine_loop operator r0.value (get_unit_from_arg_object a0 r0)
          (prest.map (fun p => (p.2.value, get_unit_from_arg_object p.1 p.2))) with
      | error err2 =>
        rw [hloop] at hfold
        simp only [Except.map, Except.error.injEq] at hfold
        refine ⟨?_, ?_⟩
        · rw [hcalc, hloop, hfold]
        · intro hop
          rw [hop] at herr
          exact fold_values_div_error _ _ _ herr
      | ok pr =>
        rw [hloop] at hfold
        obtain ⟨result, opSteps⟩ := pr
        simp [Except.map] at hfold
    · intro hop hrest
      subst hop
      subst hrest
      rw [hcalc]
      rfl

/-- Concrete formula definition with operator none and one fixed argument 7. -/
def consumptionCalcIdent : ConsumptionCalc :=
  .mk "Identity" " " 0 none (.cons (.mk 1 none (some 7) none "" "") .nil)

/-- C3 witness: on the concrete one-argument definition with operator
none, evaluation returns exactly the argument's value, via the theorem. -/
theorem calculate_is_left_fold_witness :
    (calculate consumptionCalcIdent 0 10).map ConsumptionResult.finalResult = .ok 7 := by
  have hargs : eval_arg_list consumptionCalcIdent.name 0 consumptionCalcIdent.args 0 10 =
      .ok [(⟨1, none, some 7, none, "", ""⟩, .mk "value" none 7 none none)] := by
    simp [consumptionCalcIdent, ConsumptionCalc.name, ConsumptionCalc.args,
      eval_arg_list, calculate_single_argument, CalcArgument.unit]
  have h := (calculate_is_left_fold consumptionCalcIdent 0 10 (by norm_num)
      (by simp [consumptionCalcIdent, ConsumptionCalc.startDate])
      (by simp [consumptionCalcIdent, ConsumptionCalc.endDate])
      _ _ [] hargs).2.2 rfl rfl
  simpa using h

/-- Concrete formula definition of the fixed 10 kWh minus fixed 5 kWh
example. -/
def consumptionCalcC9 : ConsumptionCalc :=
  .mk "Strom" "-" 0 none
    (.cons (.mk 1 none (some 10) none "kWh" "")
      (.cons (.mk 2 none (some 5) none "kWh" "") .nil))

/-- Full evaluation of the 10 kWh minus 5 kWh example. -/
theorem consumptionCalcC9_eval :
    calculate consumptionCalcC9 0 10 = .ok (.mk "Strom" 0 10
      [.mk "value" none 10 none none, .mk "value" none 5 none none] 5
      [⟨"argument", 10, "kWh"⟩, ⟨"argument", 5, "kWh"⟩, ⟨"operation", 5, "kWh"⟩,
        ⟨"result", 5, "kWh"⟩]
      "10,0 kWh - 5,0 kWh" "5,0 kWh") := by
  simp [consumptionCalcC9, calculate, eval_arg_list, calculate_single_argument,
    combine_loop, apply_operator, combine_units, get_unit_from_arg_object,
    build_formula_display, format_number, roundHalfEven, groupThousandsRev,
    lastOpUnit, strip_ws, CalcArgument.unit, ArgumentResult.value,
    ArgumentResult.sourceType, ArgumentResult.nestedResult, ArgumentResult.source,
    ConsumptionResult.finalResult]
  norm_num
  decide

/-- C9 counterexample: the example evaluates to 5 with the formula string
rendered with German decimal commas, so the display is not the claimed
dot-decimal string. -/
theorem formula_display_dot_decimal_false :
    (calculate consumptionCalcC9 0 10).map ConsumptionResult.finalResult = .ok 5 ∧
    (calculate consumptionCalcC9 0 10).map ConsumptionResult.formulaDisplay =
      .ok "10,0 kWh - 5,0 kWh" ∧
    (calculate consumptionCalcC9 0 10).map ConsumptionResult.formulaDisplay ≠
      .ok "10.0 kWh - 5.0 kWh" := by
  rw [consumptionCalcC9_eval]
  refine ⟨rfl, rfl, fun hcontra => ?_⟩
  simp only [Except.map, ConsumptionResult.formulaDisplay, Except.ok.injEq] at hcontra
  exact absurd hcontra (by decide)

/-- C9 amended: the example returns the result 5 kWh and a formula_display
string equal to "10,0 kWh - 5,0 kWh" (comma decimal separator, as the
display code formats numbers in the German locale style). -/
theorem formula_display_comma_decimal :
    (calculate consumptionCalcC9 0 10).map ConsumptionResult.finalResult = .ok 5 ∧
    (calculate consumptionCalcC9 0 10).map ConsumptionResult.formulaDisplay =
      .ok "10,0 kWh - 5,0 kWh" := by
  rw [consumptionCalcC9_eval]
  exact ⟨rfl, rfl⟩

/-- One `Renter` row (`renter.py`): the occupancy and contract interval
data consumed by the splitting; personal/contact/token columns are
omitted. -/
structure Renter where
  id : ℕ
  firstName : String
  lastName : String
  moveInDate : Date
  moveOutDate : Option Date
  contractStartDate : Option Date
  contractEndDate : Option Date
  deriving Repr, DecidableEq

/-- An `Apartment` row (`apartment.py`) with its renters (the reverse
foreign key).  The area is optional here to model the source's defensive
`size_in_m2 or Decimal('0')` fallback for a missing area. -/
structure Apartment where
  id : ℕ
  number : String
  name : String
  sizeInM2 : Option ℚ
  renters : List Renter
  deriving Repr, DecidableEq

/-- One entry of the list returned by `Apartment.get_renters_for_period`:
a sub-interval with its renter, or a vacancy when the renter is absent. -/
structure RenterPeriod where
  startDate : Date
  endDate : Date
  renterId : Option ℕ
  renter : Option Renter
  deriving Repr, DecidableEq

/-- The default-mode queryset filter of `get_renters_for_period`:
`move_in_date <= end AND (move_out_date is null OR move_out_date >= start)`. -/
def renterMoveFilter (s e : Date) (r : Renter) : Bool :=
  r.moveInDate ≤ e &&
    (match r.moveOutDate with
     | none => true
     | some d => s ≤ d)

/-- The contract-mode queryset filter of `get_renters_for_period`,
mirroring the source's Q expression disjunct for disjunct (the last two
disjuncts are subsumed by the first). -/
def renterContractFilter (s e : Date) (r : Renter) : Bool :=
  ((match r.contractStartDate with
    | some c => decide (c ≤ e)
    | none => false) ||
   (r.contractStartDate = none && r.moveInDate ≤ e)) &&
  (r.contractEndDate = none ||
   (match r.contractEndDate with
    | some c => decide (s ≤ c)
    | none => false) ||
   (r.contractEndDate = none && r.moveOutDate = none) ||
   (r.contractEndDate = none &&
    (match r.moveOutDate with
     | some d => decide (s ≤ d)
     | none => false)))

/-- Ordering relation of the default mode: `order_by('move_in_date')`. -/
def moveInLE (r1 r2 : Renter) : Prop := r1.moveInDate ≤ r2.moveInDate

instance : DecidableRel moveInLE := fun r1 r2 => by
  unfold moveInLE
  infer_instance

instance : IsTotal Renter moveInLE :=
  ⟨fun r1 r2 => le_total r1.moveInDate r2.moveInDate⟩

instance : IsTrans Renter moveInLE :=
  ⟨fun _ _ _ h1 h2 => le_trans h1 h2⟩

/-- The first sort key of the contract mode, with a SQL NULL ordered
before every date. -/
def contractStartKey (r : Renter) : WithBot ℤ :=
  match r.contractStartDate with
  | none => ⊥
  | some d => (d : WithBot ℤ)

/-- Ordering relation of the contract mode:
`order_by('contract_start_date', 'move_in_date')` with NULLs first. -/
def contractOrderLE (r1 r2 : Renter) : Prop :=
  contractStartKey r1 < contractStartKey r2 ∨
    (contractStartKey r1 = contractStartKey r2 ∧ r1.moveInDate ≤ r2.moveInDate)

instance : DecidableRel contractOrderLE := fun r1 r2 => by
  unfold contractOrderLE
  infer_instance

/-- The per-renter occupancy start used by the splitting:
contract start with fallback to move-in in contract mode. -/
def renterPeriodStart (useContract : Bool) (r : Renter) : Date :=
  if useContract then r.contractStartDate.getD r.moveInDate else r.moveInDate

/-- The per-renter occupancy end used by the splitting: contract end,
falling back to move-out (`contract_end_date or move_out_date`) in
contract mode. -/
def renterPeriodEnd (useContract : Bool) (r : Renter) : Option Date :=
  if useContract then
    match r.contractEndDate with
    | some d => some d
    | none => r.moveOutDate
  else r.moveOutDate

/-- The effective (window-clipped) start of one renter's sub-interval:
`renter_start = max(renter_period_start, start_date)`. -/
def clipStart (useContract : Bool) (s : Date) (r : Renter) : Date :=
  max (renterPeriodStart useContract r) s

/-- The effective (window-clipped) end of one renter's sub-interval:
`min(renter_period_end, end_date)`, or the window end for an open
occupancy. -/
def clipEnd (useContract : Bool) (e : Date) (r : Renter) : Date :=
  match renterPeriodEnd useContract r with
  | some d => min d e
  | none => e

/-- The gap-filling loop of `get_renters_for_period`: clip each renter's
interval to the window, insert a vacancy for any gap before it, append
the renter sub-interval when non-degenerate, and close with a final
vacancy up to the window end. -/
def renters_loop (useContract : Bool) (s e : Date) :
    Date → List Renter → List RenterPeriod
  | current, [] =>
    if current < e then [⟨current, e, none, none⟩] else []
  | current, r :: rest =>
    let renterStart := clipStart useContract s r
    let renterEnd := clipEnd useContract e r
    let gap : List RenterPeriod :=
      if current < renterStart then [⟨current, renterStart, none, none⟩] else []
    if renterStart ≤ renterEnd then
      gap ++ ⟨renterStart, renterEnd, some r.id, some r⟩ ::
        renters_loop useContract s e renterEnd rest
    else
      gap ++ renters_loop useContract s e current rest

/-- `Apartment.get_renters_for_period` (`apartment.py`): filter and order
the apartment's renters as the queryset of the requested mode does, then
run the gap-filling loop from the window start. -/
def get_renters_for_period (a : Apartment) (s e : Date) (useContract : Bool) :
    List RenterPeriod :=
  if useContract then
    renters_loop true s e s
      (List.insertionSort contractOrderLE (a.renters.filter (renterContractFilter s e)))
  else
    renters_loop false s e s
      (List.insertionSort moveInLE (a.renters.filter (renterMoveFilter s e)))

/-- A stored tenancy with a non-degenerate interval: the move-out date,
when present, lies strictly after the move-in date. -/
def renterValidB (r : Renter) : Bool :=
  match r.moveOutDate with
  | some d => decide (r.moveInDate < d)
  | none => true

/-- Disjointness of two stored tenancies as half-open day intervals
(`[move_in, move_out)`, a missing move-out being open-ended): one of them
ends no later than the other begins. -/
def renterDisjointB (r1 r2 : Renter) : Bool :=
  (match r1.moveOutDate with
   | some d => decide (d ≤ r2.moveInDate)
   | none => false) ||
  (match r2.moveOutDate with
   | some d => decide (d ≤ r1.moveInDate)
   | none => false)

/-- Propositional form of tenancy disjointness. -/
def RenterDisjoint (r1 r2 : Renter) : Prop := renterDisjointB r1 r2 = true

instance : DecidableRel RenterDisjoint := fun r1 r2 => by
  unfold RenterDisjoint
  infer_instance

/-- Tenancy disjointness is symmetric. -/
theorem renterDisjoint_symm : Symmetric RenterDisjoint := by
  intro r1 r2 h
  unfold RenterDisjoint renterDisjointB at h ⊢
  rcases Bool.or_eq_true_iff.mp h with h1 | h2
  · exact Bool.or_eq_true_iff.mpr (Or.inr h1)
  · exact Bool.or_eq_true_iff.mpr (Or.inl h2)

/-- A list of sub-intervals tiles the window from `a` up to `e`: each
entry starts where its predecessor ends (the first at `a`), and the last
ends at `e`. -/
def TilesFrom (e : Date) : Date → List RenterPeriod → Prop
  | a, [] => a = e
  | a, p :: ps => p.startDate = a ∧ TilesFrom e p.endDate ps

/-- Invariant of the gap-filling loop in the default mode: every renter
interval begins no earlier than the running date reached before it. -/
def LoopChain (s e : Date) : Date → List Renter → Prop
  | _, [] => True
  | current, r :: rest =>
    current ≤ clipStart false s r ∧ LoopChain s e (clipEnd false e r) rest

/-- In the default mode the clipped start is the move-in date clipped to
the window start. -/
theorem clipStart_false (s : Date) (r : Renter) :
    clipStart false s r = max r.moveInDate s := rfl

/-- In the default mode the clipped end is the move-out date clipped to
the window end (or the window end when open). -/
theorem clipEnd_false (e : Date) (r : Renter) :
    clipEnd false e r =
      (match r.moveOutDate with | some d => min d e | none => e) := rfl

/-- In the default mode, with filtered valid renters and a chained
running date, the gap-filling loop produces an exact tiling of
[current, e]; renter sub-intervals carry their clipped bounds, vacancies
carry no renter. -/
theorem renters_loop_tiles (s e : Date) (hse : s ≤ e) :
    ∀ (l : List Renter),
    (∀ r ∈ l, renterMoveFilter s e r = true) →
    (∀ r ∈ l, renterValidB r = true) →
    ∀ current, s ≤ current → current ≤ e → LoopChain s e current l →
    TilesFrom e current (renters_loop false s e current l) ∧
    ∀ p ∈ renters_loop false s e current l,
      current ≤ p.startDate ∧ p.startDate ≤ p.endDate ∧ p.endDate ≤ e ∧
      (p.renterId = none ↔ p.renter = none) ∧
      (∀ r, p.renter = some r → r ∈ l ∧ p.renterId = some r.id ∧
        p.startDate = clipStart false s r ∧ p.endDate = clipEnd false e r) := by
  intro l
  induction l with
  | nil =>
    intro _ _ current hsc hce _
    constructor
    · unfold renters_loop
      by_cases hlt : current < e
      · rw [if_pos hlt]
        exact ⟨rfl, rfl⟩
      · rw [if_neg hlt]
        exact le_antisymm hce (not_lt.mp hlt)
    · intro p hp
      unfold renters_loop at hp
      by_cases hlt : current < e
      · rw [if_pos hlt] at hp
        have hpeq := List.mem_singleton.mp hp
        subst hpeq
        refine ⟨le_refl _, le_of_lt hlt, le_refl _, by simp, ?_⟩
        intro r hr
        cases hr
      · rw [if_neg hlt] at hp
        cases hp
  | cons r rest ih =>
    intro hfil hval current hsc hce hchain
    obtain ⟨hch1, hch2⟩ := hchain
    have hfilr := hfil r (List.mem_cons_self _ _)
    have hvalr := hval r (List.mem_cons_self _ _)
    have hmi_le : r.moveInDate ≤ e := by
      simp only [renterMoveFilter, Bool.and_eq_true, decide_eq_true_eq] at hfilr
      exact hfilr.1
    have hok : clipStart false s r ≤ clipEnd false e r := by
      rw [clipStart_false, clipEnd_false]
      cases hmo : r.moveOutDate with
      | none => exact max_le hmi_le hse
      | some d =>
        have hmid : r.moveInDate < d := by
          simpa [renterValidB, hmo] using hvalr
        have hsd : s ≤ d := by
          simp only [renterMoveFilter, hmo, Bool.and_eq_true, decide_eq_true_eq] at hfilr
          exact hfilr.2
        show max r.moveInDate s ≤ min d e
        exact max_le (le_min hmid.le hmi_le) (le_min hsd hse)
    have hclipe : clipEnd false e r ≤ e := by
      rw [clipEnd_false]
      cases r.moveOutDate with
      | none => exact le_refl _
      | some d => exact min_le_right _ _
    have hsclip : s ≤ clipEnd false e r :=
      le_trans (le_trans (by rw [clipStart_false]; exact le_max_right _ _) hok) (le_refl _)
    have hle : renters_loop false s e current (r :: rest) =
        (if current < clipStart false s r
          then [⟨current, clipStart false s r, none, none⟩] else []) ++
          ⟨clipStart false s r, clipEnd false e r, some r.id, some r⟩ ::
            renters_loop false s e (clipEnd false e r) rest := by
      simp only [renters_loop]
      rw [if_pos hok]
    have ihres := ih (fun x hx => hfil x (List.mem_cons_of_mem _ hx))
      (fun x hx => hval x (List.mem_cons_of_mem _ hx))
      (clipEnd false e r) hsclip hclipe hch2
    constructor
    · rw [hle]
      by_cases hgap : current < clipStart false s r
      · rw [if_pos hgap]
        exact ⟨rfl, rfl, ihres.1⟩
      · rw [if_neg hgap]
        have hceq : clipStart false s r = current :=
          le_antisymm (not_lt.mp hgap) hch1
        exact ⟨hceq, ihres.1⟩
    · intro p hp
      rw [hle] at hp
      rcases List.mem_append.mp hp with hp | hp
      · by_cases hgap : current < clipStart false s r
        · rw [if_pos hgap] at hp
          have hpeq := List.mem_singleton.mp hp
          subst hpeq
          refine ⟨le_refl _, hgap.le, le_trans hok hclipe, by simp, ?_⟩
          intro r2 hr2
          cases hr2
        · rw [if_neg hgap] at hp
          cases hp
      · rcases List.mem_cons.mp hp with hpeq | hp
        · subst hpeq
          refine ⟨hch1, hok, hclipe, by simp, ?_⟩
          intro r2 hr2
          have hr2eq : r = r2 := by
            simpa using hr2
          subst hr2eq
          exact ⟨List.mem_cons_self _ _, rfl, rfl, rfl⟩
        · have hq := ihres.2 p hp
          refine ⟨le_trans (le_trans hch1 hok) hq.1, hq.2.1, hq.2.2.1, hq.2.2.2.1, ?_⟩
          intro r2 hr2
          have hres := hq.2.2.2.2 r2 hr2
          exact ⟨List.mem_cons_of_mem _ hres.1, hres.2⟩

/-- A sorted list of pairwise-disjoint valid tenancies satisfies the loop
invariant from any date not beyond the first clipped start. -/
theorem chain_of_sorted_disjoint (s e : Date) :
    ∀ (l : List Renter), l.Sorted moveInLE → l.Pairwise RenterDisjoint →
    (∀ r ∈ l, renterValidB r = true) →
    ∀ current,
      (match l with
       | [] => True
       | r :: _ => current ≤ clipStart false s r) →
    LoopChain s e current l := by
  intro l
  induction l with
  | nil =>
    intro _ _ _ _ _
    trivial
  | cons r rest ih =>
    intro hsort hdisj hval current hcur
    refine ⟨hcur, ?_⟩
    apply ih hsort.of_cons hdisj.of_cons
      (fun x hx => hval x (List.mem_cons_of_mem _ hx))
    cases rest with
    | nil => trivial
    | cons r2 rest2 =>
      show clipEnd false e r ≤ clipStart false s r2
      have hd : RenterDisjoint r r2 :=
        List.rel_of_pairwise_cons hdisj (List.mem_cons_self _ _)
      have hsorted12 : moveInLE r r2 :=
        List.rel_of_pairwise_cons hsort (List.mem_cons_self _ _)
      unfold RenterDisjoint renterDisjointB at hd
      rcases Bool.or_eq_true_iff.mp hd with hcase | hcase
      · cases hmo : r.moveOutDate with
        | none =>
          rw [hmo] at hcase
          cases hcase
        | some d =>
          rw [hmo] at hcase
          have hd2 : d ≤ r2.moveInDate := of_decide_eq_true hcase
          rw [clipEnd_false, clipStart_false, hmo]
          calc min d e ≤ d := min_le_left _ _
            _ ≤ r2.moveInDate := hd2
            _ ≤ max r2.moveInDate s := le_max_left _ _
      · cases hmo2 : r2.moveOutDate with
        | none =>
          rw [hmo2] at hcase
          cases hcase
        | some d2 =>
          rw [hmo2] at hcase
          have hd2 : d2 ≤ r.moveInDate := of_decide_eq_true hcase
          have hv2 : r2.moveInDate < d2 := by
            simpa [renterValidB, hmo2] using
              hval r2 (List.mem_cons_of_mem _ (List.mem_cons_self _ _))
          unfold moveInLE at hsorted12
          exact absurd (lt_of_lt_of_le hv2 (le_trans hd2 hsorted12)) (lt_irrefl _)

/-- C10: for an apartment whose stored tenancies are pairwise
non-overlapping (as half-open day intervals) and non-degenerate, and a
window with start < end, the occupancy splitting tiles the window
exactly: the first sub-interval starts at the window start, each
subsequent one starts where the previous one ends, the last ends at the
window end, vacancies carry no renter, and every tenant sub-interval is
the tenancy clipped to the window. -/
theorem get_renters_for_period_tiles (a : Apartment) (s e : Date) (h1 : s < e)
    (hval : ∀ r ∈ a.renters, renterValidB r = true)
    (hdisj : a.renters.Pairwise RenterDisjoint) :
    TilesFrom e s (get_renters_for_period a s e false) ∧
    ∀ p ∈ get_renters_for_period a s e false,
      s ≤ p.startDate ∧ p.startDate ≤ p.endDate ∧ p.endDate ≤ e ∧
      (p.renterId = none ↔ p.renter = none) ∧
      (∀ r, p.renter = some r → r ∈ a.renters ∧ p.renterId = some r.id ∧
        p.startDate = max r.moveInDate s ∧
        p.endDate = (match r.moveOutDate with | some d => min d e | none => e)) := by
  have hperm : (List.insertionSort moveInLE
      (a.renters.filter (renterMoveFilter s e))).Perm
      (a.renters.filter (renterMoveFilter s e)) := List.perm_insertionSort _ _
  have hsort : (List.insertionSort moveInLE
      (a.renters.filter (renterMoveFilter s e))).Sorted moveInLE :=
    List.sorted_insertionSort _ _
  have hmem : ∀ r ∈ List.insertionSort moveInLE
      (a.renters.filter (renterMoveFilter s e)),
      r ∈ a.renters ∧ renterMoveFilter s e r = true := by
    intro r hr
    exact List.mem_filter.mp (hperm.mem_iff.mp hr)
  have hfil : ∀ r ∈ List.insertionSort moveInLE
      (a.renters.filter (renterMoveFilter s e)), renterMoveFilter s e r = true :=
    fun r hr => (hmem r hr).2
  have hvall : ∀ r ∈ List.insertionSort moveInLE
      (a.renters.filter (renterMoveFilter s e)), renterValidB r = true :=
    fun r hr => hval r (hmem r hr).1
  have hdisjl : (List.insertionSort moveInLE
      (a.renters.filter (renterMoveFilter s e))).Pairwise RenterDisjoint := by
    have hfilp : (a.renters.filter (renterMoveFilter s e)).Pairwise RenterDisjoint :=
      hdisj.sublist (List.filter_sublist _)
    exact (hperm.pairwise_iff (fun hxy => renterDisjoint_symm hxy)).mpr hfilp
  have hchain := chain_of_sorted_disjoint s e _ hsort hdisjl hvall s (by
    cases List.insertionSort moveInLE (a.renters.filter (renterMoveFilter s e)) with
    | nil => trivial
    | cons r0 rest0 =>
      show s ≤ clipStart false s r0
      rw [clipStart_false]
      exact le_max_right _ _)
  have hmain := renters_loop_tiles s e h1.le _ hfil hvall s (le_refl s) h1.le hchain
  constructor
  · exact hmain.1
  · intro p hp
    have hq := hmain.2 p hp
    refine ⟨hq.1, hq.2.1, hq.2.2.1, hq.2.2.2.1, ?_⟩
    intro r hr
    have hres := hq.2.2.2.2 r hr
    refine ⟨(hmem r hres.1).1, hres.2.1, ?_, ?_⟩
    · rw [hres.2.2.1, clipStart_false]
    · rw [hres.2.2.2, clipEnd_false]

/-- Concrete apartment for the C10 witness: a closed tenancy on days
0 to 10, a vacancy, and an open tenancy from day 20, in a window of 30
days. -/
def apartmentExampleC10 : Apartment :=
  { id := 1
    number := "1"
    name := "Ost"
    sizeInM2 := some 50
    renters :=
      [{ id := 1, firstName := "Anna", lastName := "A", moveInDate := 0,
         moveOutDate := some 10, contractStartDate := none, contractEndDate := none },
       { id := 2, firstName := "Ben", lastName := "B", moveInDate := 20,
         moveOutDate := none, contractStartDate := none, contractEndDate := none }] }

/-- C10 witness: the concrete apartment's splitting tiles the window
[0, 30], via the theorem. -/
theorem get_renters_for_period_tiles_witness :
    TilesFrom 30 0 (get_renters_for_period apartmentExampleC10 0 30 false) :=
  (get_renters_for_period_tiles apartmentExampleC10 0 30 (by decide)
    (by decide) (by decide)).1

/-- A `CostCenterContribution` row (`cost_center_contribution.py`):
the binding of a cost center to an apartment or a special designation,
with an optional formula definition.  The contribution's own
`distribution_type` column is not consumed by the calculation engine and
is omitted. -/
structure Contribution where
  id : ℕ
  apartment : Option Apartment
  specialDesignation : String
  consumptionCalc : Option ConsumptionCalc

/-- `CostCenterContribution.get_display_name`. -/
def Contribution.displayName (c : Contribution) : String :=
  match c.apartment with
  | some a => a.name
  | none => if c.specialDesignation ≠ "" then c.specialDesignation else "Unbekannt"

/-- A `CostCenter` row (`cost_center.py`) with its contributions (the
reverse foreign key the calculation queries). -/
structure CostCenter where
  id : ℕ
  text : String
  distributionType : String
  areaPercentage : ℚ
  consumptionPercentage : ℚ
  contributions : List Contribution

/-- The `ContributionResult` named tuple of `cost_center.py`. -/
structure ContributionResult where
  contribution : Contribution
  apartmentName : String
  consumptionCalcName : String
  consumptionResult : ConsumptionResult
  finalConsumption : ℚ
  percentage : ℚ
  renterId : Option ℕ
  renterFirstName : Option String
  renterLastName : Option String
  periodStart : Date
  periodEnd : Date
  areaShare : ℚ := 0
  areaPercentageValue : ℚ := 0
  consumptionShare : ℚ := 0
  consumptionPercentageValue : ℚ := 0

/-- The `CostCenterCalculation` named tuple of `cost_center.py`. -/
structure CostCenterCalculation where
  costCenter : CostCenter
  calculationPeriodStart : Date
  calculationPeriodEnd : Date
  contributionResults : List ContributionResult
  totalConsumption : ℚ
  apartmentCount : ℕ
  totalConsumptionUnit : String
  totalDays : ℤ := 0
  totalArea : ℚ := 0

/-- A dummy `ConsumptionResult` as the TIME/AREA/DIRECT strategies build
one (a `consumption_calc` of `None` is modelled by an empty name; the
descriptive step text is presentational and omitted). -/
def dummyResult (ps pe : Date) (value : ℚ) (unit : String) : ConsumptionResult :=
  .mk "" ps pe [] value [⟨"result", value, unit⟩] "" ""

/-- Intermediate per-sub-interval record of the strategy loops (the
`temp_results` dictionaries of `cost_center.py`). -/
structure StrategyTemp where
  contribution : Contribution
  apartmentName : String
  consumptionResult : ConsumptionResult
  finalConsumption : ℚ
  renterId : Option ℕ
  renterFirstName : Option String
  renterLastName : Option String
  periodStart : Date
  periodEnd : Date

/-- The last audit step of a result (used for the running
`total_consumption_unit`). -/
def lastStepUnit (res : ConsumptionResult) : String :=
  match res.calculationSteps.getLast? with
  | some st => st.unit
  | none => ""

/-- The running `total_consumption_unit` update of the consumption-based
and heating-mixed loops: starting empty, it is set from the final step of
each result while it is still empty, which amounts to the first non-empty
final-step unit among results carrying steps. -/
def scan_unit (results : List ConsumptionResult) : String :=
  match results.find? (fun res =>
      !res.calculationSteps.isEmpty && lastStepUnit res ≠ "") with
  | some res => lastStepUnit res
  | none => ""

/-- The percentage of one value against the total:
`(value / total) * 100` and 0 for a zero total. -/
def percentage_of (value total : ℚ) : ℚ :=
  if total ≠ 0 then value / total * 100 else 0

/-- The renter sub-intervals a contribution is split into: the
apartment's occupancy splitting, or the whole window with no tenant for a
special designation. -/
def contributionPeriods (c : Contribution) (s e : Date) (useContract : Bool) :
    List RenterPeriod :=
  match c.apartment with
  | some a => get_renters_for_period a s e useContract
  | none => [⟨s, e, none, none⟩]

/-- The per-sub-interval body of `_calculate_consumption_based`: clip the
sub-interval to the formula definition's validity window, skip
sub-intervals with no effective overlap, and evaluate the definition over
the clipped window. -/
def consumption_over_periods (cc : ConsumptionCalc) (c : Contribution) :
    List RenterPeriod → Except CalcError (List StrategyTemp)
  | [] => .ok []
  | p :: rest =>
    if p.endDate ≤ cc.startDate then
      consumption_over_periods cc c rest
    else if cc.endDate.any (fun cEnd => cEnd ≤ p.startDate) then
      consumption_over_periods cc c rest
    else
      let adjStart := max p.startDate cc.startDate
      let adjEnd :=
        match cc.endDate with
        | some cEnd => min p.endDate cEnd
        | none => p.endDate
      if adjEnd ≤ adjStart then
        consumption_over_periods cc c rest
      else
        match calculate cc adjStart adjEnd with
        | .error err => .error err
        | .ok res =>
          match consumption_over_periods cc c rest with
          | .error err => .error err
          | .ok temps =>
            .ok ({ contribution := c
                   apartmentName := c.displayName
                   consumptionResult := res
                   finalConsumption := res.finalResult
                   renterId := p.renterId
                   renterFirstName := p.renter.map Renter.firstName
                   renterLastName := p.renter.map Renter.lastName
                   periodStart := adjStart
                   periodEnd := adjEnd } :: temps)

/-- One contribution of `_calculate_consumption_based`: a missing formula
definition raises inside the per-contribution try block, and every
failure is re-raised as a `ValueError` carrying the contribution's
identity. -/
def consumption_temps_one (c : Contribution) (s e : Date) :
    Except CalcError (List StrategyTemp) :=
  match c.consumptionCalc with
  | none => .error (.contributionFailure c.id .missingConsumptionCalc)
  | some cc =>
    match consumption_over_periods cc c (contributionPeriods c s e false) with
    | .error err => .error (.contributionFailure c.id err)
    | .ok temps => .ok temps

/-- The contribution loop of `_calculate_consumption_based` (fail-fast:
the first failing contribution aborts the whole calculation). -/
def consumption_temps (s e : Date) :
    List Contribution → Except CalcError (List StrategyTemp)
  | [] => .ok []
  | c :: rest =>
    match consumption_temps_one c s e with
    | .error err => .error err
    | .ok temps =>
      match consumption_temps s e rest with
      | .error err => .error err
      | .ok more => .ok (temps ++ more)

/-- Assemble `ContributionResult`s from strategy temps: the percentage of
each temp against the total of all temps. -/
def temps_to_results (calcName : String) (total : ℚ) (temps : List StrategyTemp) :
    List ContributionResult :=
  temps.map (fun t =>
    { contribution := t.contribution
      apartmentName := t.apartmentName
      consumptionCalcName :=
        if calcName = "" then
          (t.contribution.consumptionCalc.map ConsumptionCalc.name).getD ""
        else calcName
      consumptionResult := t.consumptionResult
      finalConsumption := t.finalConsumption
      percentage := percentage_of t.finalConsumption total
      renterId := t.renterId
      renterFirstName := t.renterFirstName
      renterLastName := t.renterLastName
      periodStart := t.periodStart
      periodEnd := t.periodEnd })

/-- `CostCenter._calculate_consumption_based` (`cost_center.py`). -/
def calculate_consumption_based (cc : CostCenter) (s e : Date) :
    Except CalcError CostCenterCalculation :=
  match consumption_temps s e cc.contributions with
  | .error err => .error err
  | .ok temps =>
    let total := (temps.map StrategyTemp.finalConsumption).sum
    .ok { costCenter := cc
          calculationPeriodStart := s
          calculationPeriodEnd := e
          contributionResults := temps_to_results "" total temps
          totalConsumption := total
          apartmentCount := ((temps.map StrategyTemp.apartmentName).eraseDups).length
          totalConsumptionUnit := scan_unit (temps.map StrategyTemp.consumptionResult) }

/-- The per-contribution body of `_calculate_time_based`: one temp per
contract-mode sub-interval, valued at its day count. -/
def time_temps (s e : Date) (contributions : List Contribution) : List StrategyTemp :=
  contributions.flatMap (fun c =>
    (contributionPeriods c s e true).map (fun p =>
      let periodDays : ℤ := p.endDate - p.startDate
      { contribution := c
        apartmentName := c.displayName
        consumptionResult := dummyResult p.startDate p.endDate (periodDays : ℚ) "Tage"
        finalConsumption := (periodDays : ℚ)
        renterId := p.renterId
        renterFirstName := p.renter.map Renter.firstName
        renterLastName := p.renter.map Renter.lastName
        periodStart := p.startDate
        periodEnd := p.endDate }))

/-- `CostCenter._calculate_time_based` (`cost_center.py`): no failure
site is reachable in its loop, so it always succeeds. -/
def calculate_time_based (cc : CostCenter) (s e : Date) :
    Except CalcError CostCenterCalculation :=
  let temps := time_temps s e cc.contributions
  let total := (temps.map StrategyTemp.finalConsumption).sum
  .ok { costCenter := cc
        calculationPeriodStart := s
        calculationPeriodEnd := e
        contributionResults := temps_to_results "TIME" total temps
        totalConsumption := total
        apartmentCount := ((temps.map StrategyTemp.apartmentName).eraseDups).length
        totalConsumptionUnit := "Tage"
        totalDays := e - s }

/-- Insertion-ordered dictionary update, as a Python dict keyed by
apartment id behaves (`apartment_areas[apartment.id] = area`). -/
def dict_insert (l : List (ℕ × ℚ)) (k : ℕ) (v : ℚ) : List (ℕ × ℚ) :=
  if l.any (fun p => p.1 = k) then
    l.map (fun p => if p.1 = k then (k, v) else p)
  else l ++ [(k, v)]

/-- The contribution loop of `_calculate_area_based`: a missing apartment
fails (wrapped with the contribution identity); a present apartment
contributes area × day count per sub-interval, a missing or zero stored
area being taken as 0 (`size_in_m2 or Decimal('0')`) without any
failure. -/
def area_loop (s e : Date) (accTemps : List StrategyTemp)
    (areas : List (ℕ × ℚ)) :
    List Contribution → Except CalcError (List StrategyTemp × List (ℕ × ℚ))
  | [] => .ok (accTemps, areas)
  | c :: rest =>
    match c.apartment with
    | none => .error (.contributionFailure c.id .missingApartment)
    | some a =>
      let area := a.sizeInM2.getD 0
      let areas2 := dict_insert areas a.id area
      let temps : List StrategyTemp := (get_renters_for_period a s e false).map (fun p =>
        let periodDays : ℤ := p.endDate - p.startDate
        let value := area * (periodDays : ℚ)
        { contribution := c
          apartmentName := c.displayName
          consumptionResult := dummyResult p.startDate p.endDate value "m²×Tage"
          finalConsumption := value
          renterId := p.renterId
          renterFirstName := p.renter.map Renter.firstName
          renterLastName := p.renter.map Renter.lastName
          periodStart := p.startDate
          periodEnd := p.endDate })
      area_loop s e (accTemps ++ temps) areas2 rest

/-- `CostCenter._calculate_area_based` (`cost_center.py`). -/
def calculate_area_based (cc : CostCenter) (s e : Date) :
    Except CalcError CostCenterCalculation :=
  match area_loop s e [] [] cc.contributions with
  | .error err => .error err
  | .ok (temps, areas) =>
    let total := (temps.map StrategyTemp.finalConsumption).sum
    .ok { costCenter := cc
          calculationPeriodStart := s
          calculationPeriodEnd := e
          contributionResults := temps_to_results "AREA" total temps
          totalConsumption := total
          apartmentCount := ((temps.map StrategyTemp.apartmentName).eraseDups).length
          totalConsumptionUnit := "m²×Tage"
          totalDays := e - s
          totalArea := (areas.map Prod.snd).sum }

/-- A `Bill` row (`bill.py`); columns not consumed by the aggregation
(`bill_number`, paperless id, tax flag) are omitted. -/
structure Bill where
  text : String
  billDate : Date
  value : ℚ
  fromDate : Date
  toDate : Date
  costCenter : CostCenter

/-- One window check of the DIRECT strategy: split the window in contract
mode and demand no vacancy and exactly one renter sub-interval, failing
with the corresponding AmbiguousOccupancy-kind `ValueError` naming the
apartment. -/
def direct_window (a : Apartment) (apartmentName : String) (ws we : Date) :
    Except CalcError RenterPeriod :=
  let periods := get_renters_for_period a ws we true
  let vacancies := periods.filter (fun p => p.renterId = none)
  if ¬ vacancies.isEmpty then
    .error (.occupancyVacancy apartmentName
      (vacancies.map (fun p => (p.startDate, p.endDate))))
  else
    match periods.filter (fun p => p.renterId ≠ none) with
    | [] => .error (.occupancyNoRenter apartmentName)
    | [p] => .ok p
    | ps => .error (.occupancyRenterChange apartmentName
        (ps.filterMap RenterPeriod.renterId))

/-- The bill loop of the DIRECT strategy: validate every bill window and
demand the same renter across all bills, extending the overall span.  The
renter of a non-vacant sub-interval is always present; the defensive
no-renter error of the last branch is unreachable. -/
def direct_bills_loop (a : Apartment) (apartmentName : String)
    (acc : Option (ℕ × Renter × Date × Date)) :
    List Bill → Except CalcError (ℕ × Renter × Date × Date)
  | [] =>
    match acc with
    | some v => .ok v
    | none => .error (.occupancyNoRenter apartmentName)
  | b :: rest =>
    match direct_window a apartmentName b.fromDate b.toDate with
    | .error err => .error err
    | .ok p =>
      match p.renterId, p.renter with
      | some rid, some r =>
        match acc with
        | none =>
          direct_bills_loop a apartmentName (some (rid, r, b.fromDate, b.toDate)) rest
        | some (vrid, vr, os, oe) =>
          if rid ≠ vrid then
            .error (.occupancyDifferentRenters apartmentName vrid rid)
          else
            direct_bills_loop a apartmentName
              (some (vrid, vr, min os b.fromDate, max oe b.toDate)) rest
      | _, _ => .error (.occupancyNoRenter apartmentName)

/-- One contribution of `_calculate_direct`: required apartment, then the
bill-list validation (or the fallback window when no bills were passed);
on success one entry valued 1 for the whole span.  The raises of this
strategy are not wrapped (no try block in the source). -/
def direct_temp (c : Contribution) (s e : Date) (bills : Option (List Bill)) :
    Except CalcError StrategyTemp :=
  match c.apartment with
  | none => .error .missingApartment
  | some a =>
    match bills with
    | some (b :: bs) =>
      match direct_bills_loop a c.displayName none (b :: bs) with
      | .error err => .error err
      | .ok (rid, r, os, oe) =>
        .ok { contribution := c
              apartmentName := c.displayName
              consumptionResult := dummyResult os oe 1 "Anteil"
              finalConsumption := 1
              renterId := some rid
              renterFirstName := some r.firstName
              renterLastName := some r.lastName
              periodStart := os
              periodEnd := oe }
    | _ =>
      match direct_window a c.displayName s e with
      | .error err => .error err
      | .ok p =>
        match p.renterId, p.renter with
        | some rid, some r =>
          .ok { contribution := c
                apartmentName := c.displayName
                consumptionResult := dummyResult p.startDate p.endDate 1 "Anteil"
                finalConsumption := 1
                renterId := some rid
                renterFirstName := some r.firstName
                renterLastName := some r.lastName
                periodStart := p.startDate
                periodEnd := p.endDate }
        | _, _ => .error (.occupancyNoRenter c.displayName)

/-- The contribution loop of `_calculate_direct`. -/
def direct_temps (s e : Date) (bills : Option (List Bill)) :
    List Contribution → Except CalcError (List StrategyTemp)
  | [] => .ok []
  | c :: rest =>
    match direct_temp c s e bills with
    | .error err => .error err
    | .ok t =>
      match direct_temps s e bills rest with
      | .error err => .error err
      | .ok more => .ok (t :: more)

/-- `CostCenter._calculate_direct` (`cost_center.py`). -/
def calculate_direct (cc : CostCenter) (s e : Date) (bills : Option (List Bill)) :
    Except CalcError CostCenterCalculation :=
  match direct_temps s e bills cc.contributions with
  | .error err => .error err
  | .ok temps =>
    let total := (temps.map StrategyTemp.finalConsumption).sum
    .ok { costCenter := cc
          calculationPeriodStart := s
          calculationPeriodEnd := e
          contributionResults := temps_to_results "DIRECT" total temps
          totalConsumption := total
          apartmentCount := ((temps.map StrategyTemp.apartmentName).eraseDups).length
          totalConsumptionUnit := "Anteil" }

/-- Intermediate record of the heating-mixed loop, carrying both the
consumption value and the area-days share of one sub-interval. -/
structure HeatingTemp where
  contribution : Contribution
  apartmentName : String
  consumptionResult : ConsumptionResult
  consumptionValue : ℚ
  areaDays : ℚ
  apartmentArea : ℚ
  periodDays : ℤ
  renterId : Option ℕ
  renterFirstName : Option String
  renterLastName : Option String
  periodStart : Date
  periodEnd : Date

/-- The per-sub-interval body of `_calculate_heating_mixed`: the same
validity-window clipping as the consumption strategy, evaluating the
formula and recording area × adjusted day count. -/
def heating_over_periods (cc : ConsumptionCalc) (c : Contribution) (area : ℚ) :
    List RenterPeriod → Except CalcError (List HeatingTemp)
  | [] => .ok []
  | p :: rest =>
    if p.endDate ≤ cc.startDate then
      heating_over_periods cc c area rest
    else if cc.endDate.any (fun cEnd => cEnd ≤ p.startDate) then
      heating_over_periods cc c area rest
    else
      let adjStart := max p.startDate cc.startDate
      let adjEnd :=
        match cc.endDate with
        | some cEnd => min p.endDate cEnd
        | none => p.endDate
      if adjEnd ≤ adjStart then
        heating_over_periods cc c area rest
      else
        match calculate cc adjStart adjEnd with
        | .error err => .error err
        | .ok res =>
          match heating_over_periods cc c area rest with
          | .error err => .error err
          | .ok temps =>
            let adjDays : ℤ := adjEnd - adjStart
            .ok ({ contribution := c
                   apartmentName := c.displayName
                   consumptionResult := res
                   consumptionValue := res.finalResult
                   areaDays := area * (adjDays : ℚ)
                   apartmentArea := area
                   periodDays := adjDays
                   renterId := p.renterId
                   renterFirstName := p.renter.map Renter.firstName
                   renterLastName := p.renter.map Renter.lastName
                   periodStart := adjStart
                   periodEnd := adjEnd } :: temps)

/-- The contribution loop of `_calculate_heating_mixed`: apartment and
formula definition are both required, the stored area falls back to 0,
and every failure is wrapped with the contribution identity. -/
def heating_loop (s e : Date) (accTemps : List HeatingTemp)
    (areas : List (ℕ × ℚ)) :
    List Contribution → Except CalcError (List HeatingTemp × List (ℕ × ℚ))
  | [] => .ok (accTemps, areas)
  | c :: rest =>
    match c.apartment with
    | none => .error (.contributionFailure c.id .missingApartment)
    | some a =>
      match c.consumptionCalc with
      | none => .error (.contributionFailure c.id .missingConsumptionCalc)
      | some cc =>
        let area := a.sizeInM2.getD 0
        let areas2 := dict_insert areas a.id area
        match heating_over_periods cc c area (get_renters_for_period a s e false) with
        | .error err => .error (.contributionFailure c.id err)
        | .ok temps => heating_loop s e (accTemps ++ temps) areas2 rest

/-- The combined percentage of one heating-mixed temp:
area% × area weight + consumption% × consumption weight, the weights
being the cost center's configured percentages over 100. -/
def heating_combined_percentage (costCtr : CostCenter)
    (totalAreaDays totalConsumption : ℚ) (t : HeatingTemp) : ℚ :=
  (if 0 < totalAreaDays then t.areaDays / totalAreaDays * 100 else 0) *
      (costCtr.areaPercentage / 100) +
    (if 0 < totalConsumption then t.consumptionValue / totalConsumption * 100 else 0) *
      (costCtr.consumptionPercentage / 100)

/-- One row of the heating-mixed result list: the contribution together
with its combined percentage and its separate area and consumption
shares. -/
def heating_result (cc : CostCenter) (totalAreaDays totalConsumption : ℚ)
    (totalUnit : String) (t : HeatingTemp) : ContributionResult :=
  { contribution := t.contribution
    apartmentName := t.apartmentName
    consumptionCalcName :=
      (t.contribution.consumptionCalc.map ConsumptionCalc.name).getD ""
    consumptionResult := .mk
      ((t.contribution.consumptionCalc.map ConsumptionCalc.name).getD "")
      t.periodStart t.periodEnd [] t.consumptionValue
      [⟨"result", t.areaDays, "m²×Tage"⟩,
       ⟨"result", t.consumptionValue, totalUnit⟩] "" ""
    finalConsumption := t.consumptionValue
    percentage := heating_combined_percentage cc totalAreaDays
      totalConsumption t
    renterId := t.renterId
    renterFirstName := t.renterFirstName
    renterLastName := t.renterLastName
    periodStart := t.periodStart
    periodEnd := t.periodEnd
    areaShare := t.areaDays
    areaPercentageValue :=
      if 0 < totalAreaDays then t.areaDays / totalAreaDays * 100 else 0
    consumptionShare := t.consumptionValue
    consumptionPercentageValue :=
      if 0 < totalConsumption then
        t.consumptionValue / totalConsumption * 100 else 0 }

/-- `CostCenter._calculate_heating_mixed` (`cost_center.py`). -/
def calculate_heating_mixed (cc : CostCenter) (s e : Date) :
    Except CalcError CostCenterCalculation :=
  match heating_loop s e [] [] cc.contributions with
  | .error err => .error err
  | .ok (temps, areas) =>
    let totalConsumption := (temps.map HeatingTemp.consumptionValue).sum
    let totalAreaDays := (temps.map HeatingTemp.areaDays).sum
    let totalUnit := scan_unit (temps.map HeatingTemp.consumptionResult)
    .ok { costCenter := cc
          calculationPeriodStart := s
          calculationPeriodEnd := e
          contributionResults :=
            temps.map (heating_result cc totalAreaDays totalConsumption totalUnit)
          totalConsumption := totalConsumption
          apartmentCount := ((temps.map HeatingTemp.apartmentName).eraseDups).length
          totalConsumptionUnit := totalUnit
          totalDays := e - s
          totalArea := (areas.map Prod.snd).sum }

/-- `CostCenter.calculate_total_consumption` (`cost_center.py`): validate
the period, return the empty calculation when the cost center has no
contributions, and dispatch on the distribution type. -/
def calculate_total_consumption (cc : CostCenter) (s e : Date)
    (bills : Option (List Bill)) : Except CalcError CostCenterCalculation :=
  if e ≤ s then .error (.invalidRange cc.text)
  else if cc.contributions.isEmpty then
    .ok { costCenter := cc
          calculationPeriodStart := s
          calculationPeriodEnd := e
          contributionResults := []
          totalConsumption := 0
          apartmentCount := 0
          totalConsumptionUnit := "" }
  else if cc.distributionType = "CONSUMPTION" then calculate_consumption_based cc s e
  else if cc.distributionType = "TIME" then calculate_time_based cc s e
  else if cc.distributionType = "AREA" then calculate_area_based cc s e
  else if cc.distributionType = "DIRECT" then calculate_direct cc s e bills
  else if cc.distributionType = "HEATING_MIXED" then calculate_heating_mixed cc s e
  else .error (.unknownDistributionType cc.distributionType)

/-- An `AccountPeriod` row (`account_period.py`) with its bills (the
queryset `Bill.objects.filter(account_period=self)`). -/
structure AccountPeriod where
  text : String
  startDate : Date
  endDate : Date
  bills : List Bill

/-- The `CostCenterSummary` named tuple of `account_period.py`. -/
structure CostCenterSummary where
  costCenter : CostCenter
  bills : List Bill
  totalAmount : ℚ
  billCount : ℕ
  dateRangeEarliest : Date
  dateRangeLatest : Date
  costCenterCalculation : Option CostCenterCalculation

/-- The `AccountPeriodCalculation` named tuple of `account_period.py`. -/
structure AccountPeriodCalculation where
  costCenterSummaries : List CostCenterSummary
  grandTotal : ℚ
  totalBillCount : ℕ
  costCenterCount : ℕ

/-- Bill ordering of the aggregation queryset:
`order_by('cost_center__text', 'bill_date')`. -/
def billOrderLE (b1 b2 : Bill) : Prop :=
  b1.costCenter.text < b2.costCenter.text ∨
    (b1.costCenter.text = b2.costCenter.text ∧ b1.billDate ≤ b2.billDate)

instance : DecidableRel billOrderLE := fun b1 b2 => by
  unfold billOrderLE
  infer_instance

/-- Summary ordering of the final
`cost_center_summaries.sort(key=...cost_center.text)`. -/
def summaryOrderLE (s1 s2 : CostCenterSummary) : Prop :=
  s1.costCenter.text ≤ s2.costCenter.text

instance : DecidableRel summaryOrderLE := fun s1 s2 => by
  unfold summaryOrderLE
  infer_instance

/-- Grouping of bills by cost center, as iterating a Python dict keyed by
the model instance (equal by primary key) does: insertion order of first
appearance, appending each bill to its group. -/
def group_bills (bills : List Bill) : List (CostCenter × List Bill) :=
  bills.foldl (fun acc b =>
    if acc.any (fun g => g.1.id = b.costCenter.id) then
      acc.map (fun g => if g.1.id = b.costCenter.id then (g.1, g.2 ++ [b]) else g)
    else acc ++ [(b.costCenter, [b])]) []

/-- One cost-center summary of `calculate_bills_by_cost_center`: sum and
count the group's bills and attempt the cost-center calculation, which is
caught on failure (`except Exception`) and recorded as `None` — the
aggregation itself never aborts. -/
def make_summary (s e : Date) (g : CostCenter × List Bill) : CostCenterSummary :=
  { costCenter := g.1
    bills := g.2
    totalAmount := (g.2.map Bill.value).sum
    billCount := g.2.length
    dateRangeEarliest :=
      match g.2 with
      | [] => 0
      | b :: bs => (bs.map Bill.billDate).foldl min b.billDate
    dateRangeLatest :=
      match g.2 with
      | [] => 0
      | b :: bs => (bs.map Bill.billDate).foldl max b.billDate
    costCenterCalculation :=
      match calculate_total_consumption g.1 s e none with
      | .ok c2 => some c2
      | .error _ => none }

/-- `AccountPeriod.calculate_bills_by_cost_center` (`account_period.py`). -/
def calculate_bills_by_cost_center (ap : AccountPeriod) : AccountPeriodCalculation :=
  if ap.bills.isEmpty then
    { costCenterSummaries := [], grandTotal := 0, totalBillCount := 0,
      costCenterCount := 0 }
  else
    let sortedBills := List.insertionSort billOrderLE ap.bills
    let groups := group_bills sortedBills
    let summaries := groups.map (make_summary ap.startDate ap.endDate)
    let sorted := List.insertionSort summaryOrderLE summaries
    { costCenterSummaries := sorted
      grandTotal := (summaries.map CostCenterSummary.totalAmount).sum
      totalBillCount := (summaries.map CostCenterSummary.billCount).sum
      costCenterCount := sorted.length }

/-- Python's `round(x, 2)` on an exact rational: half-even rounding to a
multiple of one hundredth. -/
def round2 (x : ℚ) : ℚ := (roundHalfEven (x * 100) : ℚ) / 100

/-- The per-cost-center monetary shares of the yearly calculation view
(`yearly_calculation.py`). -/
structure SummaryShares where
  euroAnteile : List ℚ
  sumEuroAnteil : ℚ
  roundingDiff : Option ℚ

/-- The share computation of `yearly_calculation`: optionally filter the
contribution results by renter, take each monetary share as
percentage ÷ 100 × summed bill amount, and compute the rounding
difference of the total, rounded to two decimals and suppressed below one
cent. -/
def summary_shares (renterFilter : Option ℕ)
    (results : List ContributionResult) (totalAmount : ℚ) : SummaryShares :=
  let filtered : List ContributionResult :=
    match renterFilter with
    | some rid => results.filter (fun cr => cr.renterId = some rid)
    | none => results
  let euro := filtered.map (fun cr => cr.percentage / 100 * totalAmount)
  let sumE := euro.sum
  let diff := round2 (totalAmount - sumE)
  { euroAnteile := euro
    sumEuroAnteil := sumE
    roundingDiff := if 1/100 ≤ |diff| then some diff else none }

/-- When every contribution has an apartment, the area loop succeeds, and
each produced entry's value is the stored area (0 when absent) times the
sub-interval's day count. -/
theorem area_loop_ok (s e : Date) :
    ∀ (l : List Contribution) (accT : List StrategyTemp) (accD : List (ℕ × ℚ)),
    (∀ c ∈ l, c.apartment ≠ none) →
    ∃ temps areas, area_loop s e accT accD l = .ok (temps, areas) ∧
      ∀ t ∈ temps, t ∈ accT ∨
        ∃ a, t.contribution.apartment = some a ∧
          t.finalConsumption =
            a.sizeInM2.getD 0 * ((t.periodEnd - t.periodStart : ℤ) : ℚ) := by
  intro l
  induction l with
  | nil =>
    intro accT accD _
    exact ⟨accT, accD, rfl, fun t ht => Or.inl ht⟩
  | cons c rest ih =>
    intro accT accD hap
    cases hca : c.apartment with
    | none => exact absurd hca (hap c (List.mem_cons_self _ _))
    | some a =>
      have hloopeq : area_loop s e accT accD (c :: rest) =
          area_loop s e
            (accT ++ (get_renters_for_period a s e false).map (fun p =>
              { contribution := c
                apartmentName := c.displayName
                consumptionResult := dummyResult p.startDate p.endDate
                  (a.sizeInM2.getD 0 * ((p.endDate - p.startDate : ℤ) : ℚ)) "m²×Tage"
                finalConsumption :=
                  a.sizeInM2.getD 0 * ((p.endDate - p.startDate : ℤ) : ℚ)
                renterId := p.renterId
                renterFirstName := p.renter.map Renter.firstName
                renterLastName := p.renter.map Renter.lastName
                periodStart := p.startDate
                periodEnd := p.endDate }))
            (dict_insert accD a.id (a.sizeInM2.getD 0)) rest := by
        simp only [area_loop, hca]
      obtain ⟨temps, areas, heq, hprop⟩ := ih
        (accT ++ (get_renters_for_period a s e false).map (fun p =>
          { contribution := c
            apartmentName := c.displayName
            consumptionResult := dummyResult p.startDate p.endDate
              (a.sizeInM2.getD 0 * ((p.endDate - p.startDate : ℤ) : ℚ)) "m²×Tage"
            finalConsumption :=
              a.sizeInM2.getD 0 * ((p.endDate - p.startDate : ℤ) : ℚ)
            renterId := p.renterId
            renterFirstName := p.renter.map Renter.firstName
            renterLastName := p.renter.map Renter.lastName
            periodStart := p.startDate
            periodEnd := p.endDate }))
        (dict_insert accD a.id (a.sizeInM2.getD 0))
        (fun c2 hc2 => hap c2 (List.mem_cons_of_mem _ hc2))
      refine ⟨temps, areas, hloopeq.trans heq, ?_⟩
      intro t ht
      rcases hprop t ht with hacc | hnew
      · rcases List.mem_append.mp hacc with hacc | hmapped
        · exact Or.inl hacc
        · rcases List.mem_map.mp hmapped with ⟨p, _, hpt⟩
          subst hpt
          exact Or.inr ⟨a, hca, rfl⟩
      · exact Or.inr hnew

/-- When the first contribution without an apartment is reached (all
earlier ones having one), the area loop fails with the missing-apartment
error wrapped with that contribution's identity. -/
theorem area_loop_first_missing (s e : Date) :
    ∀ (pre : List Contribution) (c : Contribution) (post : List Contribution)
      (accT : List StrategyTemp) (accD : List (ℕ × ℚ)),
    (∀ c2 ∈ pre, c2.apartment ≠ none) → c.apartment = none →
    area_loop s e accT accD (pre ++ c :: post) =
      .error (.contributionFailure c.id .missingApartment) := by
  intro pre
  induction pre with
  | nil =>
    intro c post accT accD _ hc
    rw [List.nil_append]
    simp only [area_loop, hc]
  | cons c2 rest ih =>
    intro c post accT accD hpre hc
    cases hc2a : c2.apartment with
    | none => exact absurd hc2a (hpre c2 (List.mem_cons_self _ _))
    | some a =>
      rw [List.cons_append]
      simp only [area_loop, hc2a]
      exact ih c post _ _ (fun x hx => hpre x (List.mem_cons_of_mem _ hx)) hc

/-- C7 (amended): in the area strategy a contribution without an
apartment fails with the missing-apartment error carrying the
contribution identity; a contribution whose apartment merely has no
stored area does NOT fail — the area is taken as 0 — and every
sub-interval's value is the apartment's area (0 when absent) multiplied
by the sub-interval's day count. -/
theorem calculate_area_based_spec (cc : CostCenter) (s e : Date) :
    (∀ pre c post, cc.contributions = pre ++ c :: post →
      (∀ c2 ∈ pre, c2.apartment ≠ none) → c.apartment = none →
      calculate_area_based cc s e =
        .error (.contributionFailure c.id .missingApartment)) ∧
    ((∀ c ∈ cc.contributions, c.apartment ≠ none) →
      ∃ res, calculate_area_based cc s e = .ok res ∧
        ∀ r ∈ res.contributionResults,
          ∃ a, r.contribution.apartment = some a ∧
            r.finalConsumption =
              a.sizeInM2.getD 0 * ((r.periodEnd - r.periodStart : ℤ) : ℚ)) := by
  constructor
  · intro pre c post hsplit hpre hc
    unfold calculate_area_based
    rw [hsplit, area_loop_first_missing s e pre c post [] [] hpre hc]
  · intro hap
    obtain ⟨temps, areas, heq, hprop⟩ := area_loop_ok s e cc.contributions [] [] hap
    unfold calculate_area_based
    rw [heq]
    refine ⟨_, rfl, ?_⟩
    intro r hr
    simp only [temps_to_results, List.mem_map] at hr
    obtain ⟨t, ht, hrt⟩ := hr
    rcases hprop t ht with habs | ⟨a, hta, htv⟩
    · cases habs
    · subst hrt
      exact ⟨a, hta, htv⟩

/-- Concrete area cost center whose only contribution's apartment has no
stored area, occupied by one renter for the whole window. -/
def costCenterArealess : CostCenter :=
  { id := 3
    text := "Grundsteuer"
    distributionType := "AREA"
    areaPercentage := 30
    consumptionPercentage := 70
    contributions :=
      [{ id := 9
         apartment := some
           { id := 4
             number := "2"
             name := "West"
             sizeInM2 := none
             renters := [{ id := 5, firstName := "Carla", lastName := "C",
                           moveInDate := 0, moveOutDate := none,
                           contractStartDate := none, contractEndDate := none }] }
         specialDesignation := ""
         consumptionCalc := none }] }

/-- C7 counterexample: on the concrete cost center whose apartment has no
area, the area calculation succeeds with a single zero-valued
contribution instead of failing with a MissingArea-kind error. -/
theorem area_missing_area_not_error :
    (calculate_total_consumption costCenterArealess 0 10 none).map
        (fun res => res.contributionResults.map ContributionResult.finalConsumption) =
      .ok [0] ∧
    ∀ err, calculate_total_consumption costCenterArealess 0 10 none ≠ .error err := by
  have heval : calculate_total_consumption costCenterArealess 0 10 none =
      calculate_area_based costCenterArealess 0 10 := by
    rfl
  have harea : (calculate_area_based costCenterArealess 0 10).map
      (fun res => res.contributionResults.map ContributionResult.finalConsumption) =
      .ok [0] := by
    norm_num [calculate_area_based, area_loop, dict_insert, get_renters_for_period,
      renters_loop, renterMoveFilter, clipStart, clipEnd, renterPeriodStart,
      renterPeriodEnd, moveInLE, List.insertionSort, List.orderedInsert,
      temps_to_results, percentage_of, dummyResult, Contribution.displayName,
      costCenterArealess, scan_unit, lastStepUnit, Except.map]
  constructor
  · rw [heval]
    exact harea
  · intro err hcontra
    rw [heval] at hcontra
    rw [hcontra] at harea
    cases harea

/-- Concrete area cost center whose only contribution has no apartment. -/
def costCenterNoApartment : CostCenter :=
  { id := 4
    text := "Grundsteuer 2"
    distributionType := "AREA"
    areaPercentage := 30
    consumptionPercentage := 70
    contributions :=
      [{ id := 11
         apartment := none
         specialDesignation := "Waschmaschine"
         consumptionCalc := none }] }

/-- C7 witness: the amended theorem applied to the two concrete cost
centers — the apartment-less contribution fails with the
missing-apartment error, and the area-less apartment yields a zero-valued
success. -/
theorem calculate_area_based_spec_witness :
    calculate_area_based costCenterNoApartment 0 10 =
      .error (.contributionFailure 11 .missingApartment) ∧
    ∃ res, calculate_area_based costCenterArealess 0 10 = .ok res ∧
      ∀ r ∈ res.contributionResults,
        ∃ a, r.contribution.apartment = some a ∧
          r.finalConsumption =
            a.sizeInM2.getD 0 * ((r.periodEnd - r.periodStart : ℤ) : ℚ) := by
  constructor
  · exact (calculate_area_based_spec costCenterNoApartment 0 10).1 [] _ [] rfl
      (by intro c2 hc2; cases hc2) rfl
  · exact (calculate_area_based_spec costCenterArealess 0 10).2
      (by intro c hc; rw [List.mem_singleton.mp hc]; simp [costCenterArealess])

/-- Every error of the consumption-strategy contribution loop is a
contribution failure carrying a contribution identity. -/
theorem consumption_temps_error_kind (s e : Date) :
    ∀ (l : List Contribution) (err : CalcError),
    consumption_temps s e l = .error err →
    ∃ cid inner, err = .contributionFailure cid inner := by
  intro l
  induction l with
  | nil =>
    intro err h
    cases h
  | cons c rest ih =>
    intro err h
    unfold consumption_temps at h
    cases hone : consumption_temps_one c s e with
    | error e1 =>
      rw [hone] at h
      cases h
      unfold consumption_temps_one at hone
      cases hcc : c.consumptionCalc with
      | none =>
        rw [hcc] at hone
        dsimp only at hone
        cases hone
        exact ⟨c.id, .missingConsumptionCalc, rfl⟩
      | some cc =>
        rw [hcc] at hone
        dsimp only at hone
        cases hper : consumption_over_periods cc c (contributionPeriods c s e false) with
        | error e2 =>
          rw [hper] at hone
          cases hone
          exact ⟨c.id, e2, rfl⟩
        | ok temps =>
          rw [hper] at hone
          cases hone
    | ok temps =>
      rw [hone] at h
      cases hrec : consumption_temps s e rest with
      | error e2 =>
        rw [hrec] at h
        cases h
        exact ih _ hrec
      | ok more =>
        rw [hrec] at h
        cases h

/-- C6 (amended): within a cost center the calculation is fail-fast — a
failing contribution aborts the whole cost-center calculation with a
contribution-failure error — but the billing-period aggregation does NOT
abort: it catches any cost-center calculation error and records the
summary with cost_center_calculation none (a degraded result), so the
aggregation itself always completes. -/
theorem aggregation_catches_cost_center_errors :
    (∀ (cc : CostCenter) (s e : Date) (err : CalcError),
      cc.distributionType = "CONSUMPTION" → s < e → cc.contributions ≠ [] →
      consumption_temps s e cc.contributions = .error err →
      calculate_total_consumption cc s e none = .error err ∧
      ∃ cid inner, err = .contributionFailure cid inner) ∧
    (∀ ap : AccountPeriod,
      ∀ summary ∈ (calculate_bills_by_cost_center ap).costCenterSummaries,
      summary.costCenterCalculation =
        (calculate_total_consumption summary.costCenter ap.startDate ap.endDate
          none).toOption) := by
  constructor
  · intro cc s e err htype hlt hne herr
    refine ⟨?_, consumption_temps_error_kind s e _ _ herr⟩
    unfold calculate_total_consumption
    rw [if_neg (not_le.mpr hlt)]
    have hempty : cc.contributions.isEmpty = false := by
      cases hcl : cc.contributions with
      | nil => exact absurd hcl hne
      | cons c t => rfl
    rw [hempty]
    simp only [Bool.false_eq_true, if_false]
    rw [htype, if_pos rfl]
    unfold calculate_consumption_based
    rw [herr]
  · intro ap summary hmem
    unfold calculate_bills_by_cost_center at hmem
    by_cases hbe : ap.bills.isEmpty
    · rw [if_pos hbe] at hmem
      cases hmem
    · rw [if_neg hbe] at hmem
      dsimp only at hmem
      have hmem2 : summary ∈ (group_bills
          (List.insertionSort billOrderLE ap.bills)).map
            (make_summary ap.startDate ap.endDate) :=
        (List.perm_insertionSort summaryOrderLE _).mem_iff.mp hmem
      rcases List.mem_map.mp hmem2 with ⟨g, _, hgs⟩
      subst hgs
      unfold make_summary
      cases hcalc : calculate_total_consumption g.1 ap.startDate ap.endDate none with
      | ok c2 => simp [Except.toOption]
      | error err => simp [Except.toOption]

/-- Concrete consumption cost center whose only contribution lacks its
required formula definition, so its calculation fails. -/
def costCenterBroken : CostCenter :=
  { id := 6
    text := "Wasser"
    distributionType := "CONSUMPTION"
    areaPercentage := 30
    consumptionPercentage := 70
    contributions :=
      [{ id := 7
         apartment := none
         specialDesignation := "Hauptzähler"
         consumptionCalc := none }] }

/-- Concrete billing period holding one bill of the failing cost
center. -/
def accountPeriodBroken : AccountPeriod :=
  { text := "Abrechnung 2024"
    startDate := 0
    endDate := 10
    bills :=
      [{ text := "Wasserrechnung"
         billDate := 5
         value := 100
         fromDate := 0
         toDate := 10
         costCenter := costCenterBroken }] }

/-- C6 counterexample: the cost-center calculation fails, yet the
billing-period aggregation completes normally with that summary degraded
to cost_center_calculation none and the bill totals still reported — the
enclosing calculation neither aborts nor propagates the error. -/
theorem aggregation_no_abort_counterexample :
    calculate_total_consumption costCenterBroken 0 10 none =
      .error (.contributionFailure 7 .missingConsumptionCalc) ∧
    (calculate_bills_by_cost_center accountPeriodBroken).costCenterSummaries.map
      (fun summary => summary.costCenterCalculation.isSome) = [false] ∧
    (calculate_bills_by_cost_center accountPeriodBroken).grandTotal = 100 ∧
    (calculate_bills_by_cost_center accountPeriodBroken).totalBillCount = 1 := by
  refine ⟨rfl, ?_, ?_, ?_⟩ <;>
    norm_num [calculate_bills_by_cost_center, group_bills, make_summary,
      billOrderLE, summaryOrderLE, List.insertionSort, List.orderedInsert,
      accountPeriodBroken, costCenterBroken, calculate_total_consumption,
      calculate_consumption_based, consumption_temps, consumption_temps_one]

/-- C6 witness: the amended theorem applied to the concrete failing cost
center and its billing period. -/
theorem aggregation_catches_cost_center_errors_witness :
    calculate_total_consumption costCenterBroken 0 10 none =
      .error (.contributionFailure 7 .missingConsumptionCalc) ∧
    ∀ summary ∈ (calculate_bills_by_cost_center accountPeriodBroken).costCenterSummaries,
      summary.costCenterCalculation =
        (calculate_total_consumption summary.costCenter 0 10 none).toOption := by
  constructor
  · exact (aggregation_catches_cost_center_errors.1 costCenterBroken 0 10
      (.contributionFailure 7 .missingConsumptionCalc) rfl (by norm_num)
      (by simp [costCenterBroken]) rfl).1
  · exact aggregation_catches_cost_center_errors.2 accountPeriodBroken

/-- Half-even rounding moves a rational by at most one half. -/
theorem roundHalfEven_close (q : ℚ) : |q - (roundHalfEven q : ℚ)| ≤ 1/2 := by
  unfold roundHalfEven
  have h0 : (0 : ℚ) ≤ q - ⌊q⌋ := sub_nonneg.mpr (Int.floor_le q)
  have h1 : q - ⌊q⌋ < 1 := by
    have := Int.lt_floor_add_one q
    linarith
  by_cases hc1 : q - ⌊q⌋ < 1/2
  · rw [if_pos hc1, abs_le]
    constructor <;> linarith
  · rw [if_neg hc1]
    by_cases hc2 : (1 : ℚ)/2 < q - ⌊q⌋
    · rw [if_pos hc2]
      push_cast
      rw [abs_le]
      constructor <;> linarith
    · rw [if_neg hc2]
      have heq : q - ⌊q⌋ = 1/2 := le_antisymm (not_lt.mp hc2) (not_lt.mp hc1)
      by_cases hpar : 2 ∣ ⌊q⌋
      · rw [if_pos hpar, abs_le]
        constructor <;> linarith
      · rw [if_neg hpar]
        push_cast
        rw [abs_le]
        constructor <;> linarith

/-- Rounding to two decimals moves a rational by at most half a cent. -/
theorem round2_close (x : ℚ) : |x - round2 x| ≤ 1/200 := by
  unfold round2
  have h := roundHalfEven_close (x * 100)
  have heq : x - (roundHalfEven (x * 100) : ℚ) / 100 =
      (x * 100 - (roundHalfEven (x * 100) : ℚ)) / 100 := by ring
  rw [heq, abs_div]
  rw [abs_of_pos (by norm_num : (0:ℚ) < 100)]
  linarith [h]

/-- The rounding-difference field of the share computation, written with
the record's own sum. -/
theorem summary_shares_roundingDiff (renterFilter : Option ℕ)
    (results : List ContributionResult) (totalAmount : ℚ) :
    (summary_shares renterFilter results totalAmount).roundingDiff =
      (if 1/100 ≤ |round2 (totalAmount -
          (summary_shares renterFilter results totalAmount).sumEuroAnteil)|
       then some (round2 (totalAmount -
          (summary_shares renterFilter results totalAmount).sumEuroAnteil))
       else none) := rfl

/-- C8 (amended): each monetary share is the contribution's percentage
over 100 times the summed bill amount (over the optionally renter-filtered
results); the rounding residue is the difference rounded half-even to two
decimals, and it is reported in that ROUNDED form when at least one cent
in magnitude, so shares plus the reported residue reproduce the bill
total only up to half a cent; a suppressed residue leaves a difference of
less than 1.5 cents unreported. -/
theorem summary_shares_spec (renterFilter : Option ℕ)
    (results : List ContributionResult) (totalAmount : ℚ) :
    (summary_shares renterFilter results totalAmount).euroAnteile =
      (match renterFilter with
       | some rid => results.filter
          (fun cr : ContributionResult => cr.renterId = some rid)
       | none => results).map
        (fun cr : ContributionResult => cr.percentage / 100 * totalAmount) ∧
    (summary_shares renterFilter results totalAmount).sumEuroAnteil =
      ((summary_shares renterFilter results totalAmount).euroAnteile).sum ∧
    (∀ d, (summary_shares renterFilter results totalAmount).roundingDiff = some d →
      d = round2 (totalAmount -
        (summary_shares renterFilter results totalAmount).sumEuroAnteil) ∧
      1/100 ≤ |d| ∧
      |(summary_shares renterFilter results totalAmount).sumEuroAnteil + d -
        totalAmount| ≤ 1/200) ∧
    ((summary_shares renterFilter results totalAmount).roundingDiff = none →
      |totalAmount -
        (summary_shares renterFilter results totalAmount).sumEuroAnteil| < 3/200) := by
  refine ⟨rfl, rfl, ?_, ?_⟩
  · intro d hd
    rw [summary_shares_roundingDiff] at hd
    by_cases hth : (1 : ℚ)/100 ≤ |round2 (totalAmount -
        (summary_shares renterFilter results totalAmount).sumEuroAnteil)|
    · rw [if_pos hth] at hd
      cases hd
      refine ⟨rfl, hth, ?_⟩
      have h := round2_close (totalAmount -
        (summary_shares renterFilter results totalAmount).sumEuroAnteil)
      have heq : (summary_shares renterFilter results totalAmount).sumEuroAnteil +
          round2 (totalAmount -
            (summary_shares renterFilter results totalAmount).sumEuroAnteil) -
          totalAmount =
          -((totalAmount -
              (summary_shares renterFilter results totalAmount).sumEuroAnteil) -
            round2 (totalAmount -
              (summary_shares renterFilter results totalAmount).sumEuroAnteil)) := by
        ring
      rw [heq, abs_neg]
      exact h
    · rw [if_neg hth] at hd
      cases hd
  · intro hnone
    rw [summary_shares_roundingDiff] at hnone
    by_cases hth : (1 : ℚ)/100 ≤ |round2 (totalAmount -
        (summary_shares renterFilter results totalAmount).sumEuroAnteil)|
    · rw [if_pos hth] at hnone
      cases hnone
    · rw [if_neg hth] at hnone
      have h := round2_close (totalAmount -
        (summary_shares renterFilter results totalAmount).sumEuroAnteil)
      have hlt := not_le.mp hth
      have htri : |totalAmount -
          (summary_shares renterFilter results totalAmount).sumEuroAnteil| ≤
          |(totalAmount -
              (summary_shares renterFilter results totalAmount).sumEuroAnteil) -
            round2 (totalAmount -
              (summary_shares renterFilter results totalAmount).sumEuroAnteil)| +
          |round2 (totalAmount -
            (summary_shares renterFilter results totalAmount).sumEuroAnteil)| := by
        have habs := abs_add
          ((totalAmount -
              (summary_shares renterFilter results totalAmount).sumEuroAnteil) -
            round2 (totalAmount -
              (summary_shares renterFilter results totalAmount).sumEuroAnteil))
          (round2 (totalAmount -
            (summary_shares renterFilter results totalAmount).sumEuroAnteil))
        simpa using habs
      linarith

/-- Apartment with one renter, used for the share-computation example. -/
def apartment21 : Apartment :=
  { id := 21, number := "A", name := "Apt A", sizeInM2 := some 50,
    renters := [{ id := 21, firstName := "Rita", lastName := "A", moveInDate := 0,
                  moveOutDate := none, contractStartDate := none, contractEndDate := none }] }

/-- Second apartment with one renter, with twice the consumption. -/
def apartment22 : Apartment :=
  { id := 22, number := "B", name := "Apt B", sizeInM2 := some 50,
    renters := [{ id := 22, firstName := "Sam", lastName := "B", moveInDate := 0,
                  moveOutDate := none, contractStartDate := none, contractEndDate := none }] }

/-- A formula fixed at one kilowatt hour. -/
def calcFix1 : ConsumptionCalc :=
  .mk "F1" "+" 0 none (.cons (.mk 1 none (some 1) none "kWh" "") .nil)

/-- A formula fixed at two kilowatt hours. -/
def calcFix2 : ConsumptionCalc :=
  .mk "F2" "+" 0 none (.cons (.mk 1 none (some 2) none "kWh" "") .nil)

/-- Consumption cost center whose two contributions consume one and two
kilowatt hours, so the shares are one third and two thirds. -/
def costCenterShares : CostCenter :=
  { id := 8, text := "Wasser 2", distributionType := "CONSUMPTION",
    areaPercentage := 30, consumptionPercentage := 70,
    contributions :=
      [{ id := 31, apartment := some apartment21, specialDesignation := "",
         consumptionCalc := some calcFix1 },
       { id := 32, apartment := some apartment22, specialDesignation := "",
         consumptionCalc := some calcFix2 }] }

set_option maxHeartbeats 2000000 in
/-- C8 counterexample: for the consumption cost center `costCenterShares`
(shares one third and two thirds of the total), filtering for renter 21
with bill total 1, the monetary shares sum to 1/3 and the reported
rounding difference is 0.67 — the residue rounded half-even to two
decimals — not the exact residue 2/3; so the sum of the shares plus the
reported residue does not equal the bill total, refuting that the residue
is reported exactly. -/
theorem summary_shares_rounded_residue_counterexample :
    ∃ res, calculate_total_consumption costCenterShares 0 10 none = .ok res ∧
      (summary_shares (some 21) res.contributionResults 1).sumEuroAnteil = 1/3 ∧
      (summary_shares (some 21) res.contributionResults 1).roundingDiff =
        some (67/100) ∧
      (67 : ℚ)/100 ≠ 1 - 1/3 ∧
      (1 : ℚ)/3 + 67/100 ≠ 1 := by
  have h : (calculate_total_consumption costCenterShares 0 10 none).map
      (fun res =>
        ((summary_shares (some 21) res.contributionResults 1).sumEuroAnteil,
         (summary_shares (some 21) res.contributionResults 1).roundingDiff)) =
      .ok (1/3, some (67/100)) := by
    norm_num [costCenterShares, apartment21, apartment22, calcFix1, calcFix2,
      calculate_total_consumption, calculate_consumption_based, consumption_temps,
      consumption_temps_one, consumption_over_periods, contributionPeriods,
      get_renters_for_period, renters_loop, renterMoveFilter, clipStart, clipEnd,
      renterPeriodStart, renterPeriodEnd, moveInLE, List.insertionSort,
      List.orderedInsert, calculate, eval_arg_list, calculate_single_argument,
      combine_loop, apply_operator, combine_units, get_unit_from_arg_object,
      build_formula_display, format_number, roundHalfEven, groupThousandsRev,
      strip_ws, lastOpUnit, temps_to_results, percentage_of, scan_unit,
      lastStepUnit, Except.map, ConsumptionResult.finalResult,
      ConsumptionCalc.name, ConsumptionCalc.operator, ConsumptionCalc.startDate,
      ConsumptionCalc.endDate, ConsumptionCalc.args, CalcArgument.unit,
      ArgumentResult.value, ArgumentResult.sourceType, ArgumentResult.nestedResult,
      ArgumentResult.source, Contribution.displayName,
      summary_shares, round2, List.filter]
    simp only [if_neg (show ¬("kWh" = "%") from by decide)]
    norm_num [Int.fract, abs_of_pos]
  cases hc : calculate_total_consumption costCenterShares 0 10 none with
  | error e =>
    rw [hc] at h
    exact absurd h (by simp [Except.map])
  | ok res =>
    rw [hc] at h
    simp only [Except.map, Except.ok.injEq, Prod.mk.injEq] at h
    exact ⟨res, rfl, h.1, h.2, by norm_num, by norm_num⟩

/-- C8 witness: the amended theorem applied with no filter, no results and
bill total 1, where the rounding difference 1 is reported and the shares
plus the difference land within half a cent of the total. -/
theorem summary_shares_spec_witness :
    |(summary_shares none ([] : List ContributionResult) 1).sumEuroAnteil +
      1 - 1| ≤ 1/200 :=
  ((summary_shares_spec none [] 1).2.2.1 1 (by
    norm_num [summary_shares, round2, roundHalfEven, Int.fract])).2.2

/-- The sum of a fixed linear combination of area-days and consumption
over a list of heating temps. -/
theorem heatingTemp_sum_linear (k1 k2 : ℚ) :
    ∀ (l : List HeatingTemp),
      (l.map (fun t => t.areaDays * k1 + t.consumptionValue * k2)).sum =
        (l.map HeatingTemp.areaDays).sum * k1 +
          (l.map HeatingTemp.consumptionValue).sum * k2
  | [] => by simp
  | t :: rest => by
    simp only [List.map_cons, List.sum_cons, heatingTemp_sum_linear k1 k2 rest]
    ring

/-- C2: for every heating-mixed cost center, each reported percentage is
the contribution's area-days share of the total area-days times the
configured area weight plus its consumption share of the total
consumption times the configured consumption weight, each weight being
the configured percentage over 100; and when the two configured
percentages sum to 100 and both totals are positive, the reported
percentages sum to 100. -/
theorem calculate_heating_mixed_spec (cc : CostCenter) (s e : Date)
    (res : CostCenterCalculation)
    (hok : calculate_heating_mixed cc s e = .ok res)
    (hsum : cc.areaPercentage + cc.consumptionPercentage = 100) :
    (∀ cr ∈ res.contributionResults,
      cr.percentage =
        (if 0 < (res.contributionResults.map ContributionResult.areaShare).sum
         then cr.areaShare /
            (res.contributionResults.map ContributionResult.areaShare).sum * 100
         else 0) * (cc.areaPercentage / 100) +
        (if 0 < res.totalConsumption
         then cr.consumptionShare / res.totalConsumption * 100
         else 0) * (cc.consumptionPercentage / 100)) ∧
    (0 < (res.contributionResults.map ContributionResult.areaShare).sum →
      0 < res.totalConsumption →
      (res.contributionResults.map ContributionResult.percentage).sum = 100) := by
  unfold calculate_heating_mixed at hok
  cases hl : heating_loop s e [] [] cc.contributions with
  | error err =>
    rw [hl] at hok
    exact absurd hok (by simp)
  | ok pr =>
    obtain ⟨temps, areas⟩ := pr
    rw [hl] at hok
    dsimp only at hok
    injection hok with hres
    subst hres
    dsimp only
    have hmapA : ((temps.map (heating_result cc
          ((temps.map HeatingTemp.areaDays).sum)
          ((temps.map HeatingTemp.consumptionValue).sum)
          (scan_unit (temps.map HeatingTemp.consumptionResult)))).map
        ContributionResult.areaShare) = temps.map HeatingTemp.areaDays := by
      rw [List.map_map]
      rfl
    constructor
    · intro cr hcr
      rw [List.mem_map] at hcr
      obtain ⟨t, ht, rfl⟩ := hcr
      rw [hmapA]
      rfl
    · intro hA hC
      rw [hmapA] at hA
      have hmapP : ((temps.map (heating_result cc
            ((temps.map HeatingTemp.areaDays).sum)
            ((temps.map HeatingTemp.consumptionValue).sum)
            (scan_unit (temps.map HeatingTemp.consumptionResult)))).map
          ContributionResult.percentage) =
          temps.map (fun t => heating_combined_percentage cc
            ((temps.map HeatingTemp.areaDays).sum)
            ((temps.map HeatingTemp.consumptionValue).sum) t) := by
        rw [List.map_map]
        rfl
      rw [hmapP]
      have hA0 : ((temps.map HeatingTemp.areaDays).sum) ≠ 0 := ne_of_gt hA
      have hC0 : ((temps.map HeatingTemp.consumptionValue).sum) ≠ 0 := ne_of_gt hC
      have hptw : (fun t => heating_combined_percentage cc
            ((temps.map HeatingTemp.areaDays).sum)
            ((temps.map HeatingTemp.consumptionValue).sum) t) =
          (fun t : HeatingTemp =>
            t.areaDays *
              (cc.areaPercentage / (temps.map HeatingTemp.areaDays).sum) +
            t.consumptionValue *
              (cc.consumptionPercentage /
                (temps.map HeatingTemp.consumptionValue).sum)) := by
        funext t
        unfold heating_combined_percentage
        rw [if_pos hA, if_pos hC]
        field_simp
        ring
      rw [hptw, heatingTemp_sum_linear]
      field_simp
      linarith

/-- Heating-mixed cost center with configured split 30 by area and 70 by
consumption, over two equal-area apartments, apartment A consuming twice
apartment B. -/
def costCenterHeat : CostCenter :=
  { id := 9, text := "Heizung", distributionType := "HEATING_MIXED",
    areaPercentage := 30, consumptionPercentage := 70,
    contributions :=
      [{ id := 41, apartment := some apartment21, specialDesignation := "",
         consumptionCalc := some calcFix2 },
       { id := 42, apartment := some apartment22, specialDesignation := "",
         consumptionCalc := some calcFix1 }] }

set_option maxHeartbeats 2000000 in
/-- C2 witness: for the concrete heating-mixed cost center the combined
percentages are 185/3 (about 61.7) and 115/3, and by the theorem they sum
to 100. -/
theorem calculate_heating_mixed_spec_witness :
    ∃ res, calculate_heating_mixed costCenterHeat 0 10 = .ok res ∧
      res.contributionResults.map ContributionResult.percentage =
        [185/3, 115/3] ∧
      (res.contributionResults.map ContributionResult.percentage).sum = 100 := by
  have heval : (calculate_heating_mixed costCenterHeat 0 10).map
      (fun r =>
        (r.contributionResults.map ContributionResult.percentage,
         (r.contributionResults.map ContributionResult.areaShare).sum,
         r.totalConsumption)) =
      .ok ([185/3, 115/3], 1000, 3) := by
    norm_num [costCenterHeat, apartment21, apartment22, calcFix1, calcFix2,
      calculate_heating_mixed, heating_loop, heating_over_periods,
      heating_result, heating_combined_percentage, dict_insert,
      contributionPeriods, get_renters_for_period, renters_loop,
      renterMoveFilter, clipStart, clipEnd, renterPeriodStart,
      renterPeriodEnd, moveInLE, List.insertionSort, List.orderedInsert,
      calculate, eval_arg_list, calculate_single_argument, combine_loop,
      apply_operator, combine_units, get_unit_from_arg_object,
      build_formula_display, format_number, roundHalfEven, groupThousandsRev,
      strip_ws, lastOpUnit, percentage_of, scan_unit, lastStepUnit,
      Except.map, ConsumptionResult.finalResult, ConsumptionCalc.name,
      ConsumptionCalc.operator, ConsumptionCalc.startDate,
      ConsumptionCalc.endDate, ConsumptionCalc.args, CalcArgument.unit,
      ArgumentResult.value, ArgumentResult.sourceType,
      ArgumentResult.nestedResult, ArgumentResult.source,
      Contribution.displayName]
    simp only [if_neg (show ¬("kWh" = "%") from by decide)]
    norm_num
  cases hok : calculate_heating_mixed costCenterHeat 0 10 with
  | error err =>
    rw [hok] at heval
    exact absurd heval (by simp [Except.map])
  | ok res =>
    rw [hok] at heval
    simp only [Except.map, Except.ok.injEq, Prod.mk.injEq] at heval
    refine ⟨res, rfl, heval.1, ?_⟩
    exact (calculate_heating_mixed_spec costCenterHeat 0 10 res hok
        (by norm_num [costCenterHeat])).2
      (by rw [heval.2.1]; norm_num) (by rw [heval.2.2]; norm_num)

/-- Whether a calculation error is one of the occupancy failures of the
DIRECT strategy (vacancy, no renter in the window, renter change within a
window, or different renters across bills), naming the given apartment. -/
def CalcError.isOccupancyB (err : CalcError) (name : String) : Bool :=
  match err with
  | .occupancyVacancy n _ => n = name
  | .occupancyNoRenter n => n = name
  | .occupancyRenterChange n _ => n = name
  | .occupancyDifferentRenters n _ _ => n = name
  | _ => false

/-- Filtering with the complement of a predicate that accepted nothing
returns the whole list. -/
theorem filter_not_of_filter_nil {α : Type} (f : α → Bool) :
    ∀ (l : List α), l.filter f = [] → l.filter (fun x => !(f x)) = l
  | [], _ => rfl
  | x :: xs, h => by
    cases hfx : f x with
    | true => simp [List.filter_cons, hfx] at h
    | false =>
      simp only [List.filter_cons, hfx, Bool.not_false, if_true, if_false] at h ⊢
      rw [filter_not_of_filter_nil f xs h]

/-- A successful window check of the DIRECT strategy means the
contract-mode occupancy splitting of the window has no vacancy and
consists of exactly the returned tenant sub-interval; when the splitting
tiles the window, that sub-interval is the whole window. -/
theorem direct_window_ok (a : Apartment) (name : String) (ws we : Date)
    (p : RenterPeriod) (hok : direct_window a name ws we = .ok p) :
    (get_renters_for_period a ws we true).filter
      (fun q => q.renterId = none) = [] ∧
    get_renters_for_period a ws we true = [p] ∧
    p.renterId ≠ none ∧
    (TilesFrom we ws (get_renters_for_period a ws we true) →
      p.startDate = ws ∧ p.endDate = we) := by
  unfold direct_window at hok
  dsimp only at hok
  by_cases hv : ((get_renters_for_period a ws we true).filter
      (fun q => q.renterId = none)).isEmpty
  · rw [if_neg (by simp [hv])] at hok
    have hnil : (get_renters_for_period a ws we true).filter
        (fun q => q.renterId = none) = [] := by
      simpa using hv
    have hfull : (get_renters_for_period a ws we true).filter
        (fun q => q.renterId ≠ none) = get_renters_for_period a ws we true := by
      have hc : (get_renters_for_period a ws we true).filter
          (fun q => q.renterId ≠ none) =
          (get_renters_for_period a ws we true).filter
            (fun q => !(decide (q.renterId = none))) := by
        apply List.filter_congr
        intro x _
        simp
      rw [hc]
      exact filter_not_of_filter_nil _ _ hnil
    rw [hfull] at hok
    cases hps : get_renters_for_period a ws we true with
    | nil =>
      rw [hps] at hok
      exact absurd hok (by simp)
    | cons p0 ptail =>
      cases ptail with
      | nil =>
        rw [hps] at hok
        dsimp only at hok
        injection hok with hpeq
        subst hpeq
        have hmem : p0 ∈ (get_renters_for_period a ws we true).filter
            (fun q => q.renterId ≠ none) := by
          rw [hfull, hps]
          exact List.mem_cons_self _ _
        have hne : p0.renterId ≠ none := by
          have := (List.mem_filter.mp hmem).2
          simpa using this
        refine ⟨?_, rfl, hne, ?_⟩
        · rw [hps] at hnil
          exact hnil
        · intro htile
          obtain ⟨h1, h2⟩ := htile
          exact ⟨h1, h2⟩
      | cons p1 rest =>
        rw [hps] at hok
        exact absurd hok (by simp)
  · rw [if_pos (by simpa using hv)] at hok
    exact absurd hok (by simp)

/-- A failing window check of the DIRECT strategy yields an occupancy
error naming the apartment. -/
theorem direct_window_error (a : Apartment) (name : String) (ws we : Date)
    (err : CalcError) (herr : direct_window a name ws we = .error err) :
    err.isOccupancyB name = true := by
  unfold direct_window at herr
  dsimp only at herr
  by_cases hv : ((get_renters_for_period a ws we true).filter
      (fun q => q.renterId = none)).isEmpty
  · rw [if_neg (by simp [hv])] at herr
    cases hps : (get_renters_for_period a ws we true).filter
        (fun q => q.renterId ≠ none) with
    | nil =>
      rw [hps] at herr
      injection herr with heq
      rw [← heq]
      simp [CalcError.isOccupancyB]
    | cons p0 ptail =>
      cases ptail with
      | nil =>
        rw [hps] at herr
        exact absurd herr (by simp)
      | cons p1 rest =>
        rw [hps] at herr
        injection herr with heq
        rw [← heq]
        simp [CalcError.isOccupancyB]
  · rw [if_pos (by simpa using hv)] at herr
    injection herr with heq
    rw [← heq]
    simp [CalcError.isOccupancyB]

/-- A successful bill-validation loop of the DIRECT strategy: the
returned renter is the accumulated one, and every bill window splits into
exactly one tenant sub-interval held by that same renter. -/
theorem direct_bills_loop_ok (a : Apartment) (name : String) :
    ∀ (bl : List Bill) (acc : Option (ℕ × Renter × Date × Date))
      (rid : ℕ) (r : Renter) (os oe : Date),
    direct_bills_loop a name acc bl = .ok (rid, r, os, oe) →
    (∀ v, acc = some v → rid = v.1) ∧
    ∀ b ∈ bl, ∃ p, direct_window a name b.fromDate b.toDate = .ok p ∧
      p.renterId = some rid := by
  intro bl
  induction bl with
  | nil =>
    intro acc rid r os oe h
    unfold direct_bills_loop at h
    cases acc with
    | none => exact absurd h (by simp)
    | some v =>
      dsimp only at h
      injection h with h2
      constructor
      · intro v2 hv2
        injection hv2 with h3
        rw [← h3, h2]
      · intro b hb
        cases hb
  | cons b rest ih =>
    intro acc rid r os oe h
    unfold direct_bills_loop at h
    cases hw : direct_window a name b.fromDate b.toDate with
    | error err =>
      rw [hw] at h
      exact absurd h (by simp)
    | ok p =>
      rw [hw] at h
      dsimp only at h
      cases hrid : p.renterId with
      | none =>
        rw [hrid] at h
        exact absurd h (by cases p.renter <;> simp)
      | some rid2 =>
        cases hr : p.renter with
        | none =>
          rw [hrid, hr] at h
          exact absurd h (by simp)
        | some r2 =>
          rw [hrid, hr] at h
          dsimp only at h
          cases acc with
          | none =>
            dsimp only at h
            have hres := ih (some (rid2, r2, b.fromDate, b.toDate)) rid r os oe h
            have hrideq : rid = rid2 := hres.1 _ rfl
            constructor
            · intro v2 hv2
              cases hv2
            · intro b2 hb2
              rcases List.mem_cons.mp hb2 with hbeq | hb2
              · subst hbeq
                exact ⟨p, hw, by rw [hrid, hrideq]⟩
              · exact hres.2 b2 hb2
          | some v =>
            obtain ⟨vrid, vr, vos, voe⟩ := v
            dsimp only at h
            by_cases hne : rid2 ≠ vrid
            · rw [if_pos hne] at h
              exact absurd h (by simp)
            · rw [if_neg hne] at h
              push_neg at hne
              have hres := ih _ rid r os oe h
              have hrideq : rid = vrid := hres.1 _ rfl
              constructor
              · intro v2 hv2
                injection hv2 with h3
                rw [← h3, hrideq]
              · intro b2 hb2
                rcases List.mem_cons.mp hb2 with hbeq | hb2
                · subst hbeq
                  exact ⟨p, hw, by rw [hrid, hne, hrideq]⟩
                · exact hres.2 b2 hb2

/-- A failing bill-validation loop of the DIRECT strategy yields an
occupancy error naming the apartment. -/
theorem direct_bills_loop_error (a : Apartment) (name : String) :
    ∀ (bl : List Bill) (acc : Option (ℕ × Renter × Date × Date))
      (err : CalcError),
    direct_bills_loop a name acc bl = .error err →
    err.isOccupancyB name = true := by
  intro bl
  induction bl with
  | nil =>
    intro acc err h
    unfold direct_bills_loop at h
    cases acc with
    | none =>
      injection h with heq
      rw [← heq]
      simp [CalcError.isOccupancyB]
    | some v => exact absurd h (by simp)
  | cons b rest ih =>
    intro acc err h
    unfold direct_bills_loop at h
    cases hw : direct_window a name b.fromDate b.toDate with
    | error err2 =>
      rw [hw] at h
      injection h with heq
      rw [← heq]
      exact direct_window_error a name b.fromDate b.toDate err2 hw
    | ok p =>
      rw [hw] at h
      dsimp only at h
      cases hrid : p.renterId with
      | none =>
        rw [hrid] at h
        cases hr : p.renter with
        | none =>
          rw [hr] at h
          injection h with heq
          rw [← heq]
          simp [CalcError.isOccupancyB]
        | some r2 =>
          rw [hr] at h
          injection h with heq
          rw [← heq]
          simp [CalcError.isOccupancyB]
      | some rid2 =>
        cases hr : p.renter with
        | none =>
          rw [hrid, hr] at h
          injection h with heq
          rw [← heq]
          simp [CalcError.isOccupancyB]
        | some r2 =>
          rw [hrid, hr] at h
          dsimp only at h
          cases acc with
          | none =>
            dsimp only at h
            exact ih _ err h
          | some v =>
            obtain ⟨vrid, vr, vos, voe⟩ := v
            dsimp only at h
            by_cases hne : rid2 ≠ vrid
            · rw [if_pos hne] at h
              injection h with heq
              rw [← heq]
              simp [CalcError.isOccupancyB]
            · rw [if_neg hne] at h
              exact ih _ err h

/-- A successful DIRECT contribution always carries the value 1: the
strategy is a full pass-through, never a prorated split. -/
theorem direct_temp_ok_value (c : Contribution) (s e : Date)
    (bills : Option (List Bill)) (t : StrategyTemp)
    (h : direct_temp c s e bills = .ok t) :
    t.finalConsumption = 1 := by
  unfold direct_temp at h
  cases ha : c.apartment with
  | none =>
    rw [ha] at h
    exact absurd h (by simp)
  | some a =>
    rw [ha] at h
    dsimp only at h
    rcases bills with _ | _ | ⟨b, bs⟩
    · dsimp only at h
      cases hw : direct_window a c.displayName s e with
      | error err =>
        rw [hw] at h
        exact absurd h (by simp)
      | ok p =>
        rw [hw] at h
        dsimp only at h
        cases hrid : p.renterId with
        | none =>
          rw [hrid] at h
          exact absurd h (by cases p.renter <;> simp)
        | some rid =>
          cases hr : p.renter with
          | none =>
            rw [hrid, hr] at h
            exact absurd h (by simp)
          | some r =>
            rw [hrid, hr] at h
            dsimp only at h
            injection h with heq
            rw [← heq]
    · dsimp only at h
      cases hw : direct_window a c.displayName s e with
      | error err =>
        rw [hw] at h
        exact absurd h (by simp)
      | ok p =>
        rw [hw] at h
        dsimp only at h
        cases hrid : p.renterId with
        | none =>
          rw [hrid] at h
          exact absurd h (by cases p.renter <;> simp)
        | some rid =>
          cases hr : p.renter with
          | none =>
            rw [hrid, hr] at h
            exact absurd h (by simp)
          | some r =>
            rw [hrid, hr] at h
            dsimp only at h
            injection h with heq
            rw [← heq]
    · dsimp only at h
      cases hw : direct_bills_loop a c.displayName none (b :: bs) with
      | error err =>
        rw [hw] at h
        exact absurd h (by simp)
      | ok v =>
        obtain ⟨rid, r, os, oe⟩ := v
        rw [hw] at h
        dsimp only at h
        injection h with heq
        rw [← heq]

/-- A failing DIRECT contribution fails for a missing apartment or with
an occupancy error naming the apartment. -/
theorem direct_temp_error (c : Contribution) (s e : Date)
    (bills : Option (List Bill)) (err : CalcError)
    (h : direct_temp c s e bills = .error err) :
    err = .missingApartment ∨ err.isOccupancyB c.displayName = true := by
  unfold direct_temp at h
  cases ha : c.apartment with
  | none =>
    rw [ha] at h
    injection h with heq
    exact Or.inl heq.symm
  | some a =>
    rw [ha] at h
    dsimp only at h
    rcases bills with _ | _ | ⟨b, bs⟩
    · dsimp only at h
      cases hw : direct_window a c.displayName s e with
      | error err2 =>
        rw [hw] at h
        injection h with heq
        rw [← heq]
        exact Or.inr (direct_window_error a c.displayName s e err2 hw)
      | ok p =>
        rw [hw] at h
        dsimp only at h
        cases hrid : p.renterId with
        | none =>
          rw [hrid] at h
          cases hr : p.renter with
          | none =>
            rw [hr] at h
            injection h with heq
            rw [← heq]
            exact Or.inr (by simp [CalcError.isOccupancyB])
          | some r =>
            rw [hr] at h
            injection h with heq
            rw [← heq]
            exact Or.inr (by simp [CalcError.isOccupancyB])
        | some rid =>
          cases hr : p.renter with
          | none =>
            rw [hrid, hr] at h
            injection h with heq
            rw [← heq]
            exact Or.inr (by simp [CalcError.isOccupancyB])
          | some r =>
            rw [hrid, hr] at h
            exact absurd h (by simp)
    · dsimp only at h
      cases hw : direct_window a c.displayName s e with
      | error err2 =>
        rw [hw] at h
        injection h with heq
        rw [← heq]
        exact Or.inr (direct_window_error a c.displayName s e err2 hw)
      | ok p =>
        rw [hw] at h
        dsimp only at h
        cases hrid : p.renterId with
        | none =>
          rw [hrid] at h
          cases hr : p.renter with
          | none =>
            rw [hr] at h
            injection h with heq
            rw [← heq]
            exact Or.inr (by simp [CalcError.isOccupancyB])
          | some r =>
            rw [hr] at h
            injection h with heq
            rw [← heq]
            exact Or.inr (by simp [CalcError.isOccupancyB])
        | some rid =>
          cases hr : p.renter with
          | none =>
            rw [hrid, hr] at h
            injection h with heq
            rw [← heq]
            exact Or.inr (by simp [CalcError.isOccupancyB])
          | some r =>
            rw [hrid, hr] at h
            exact absurd h (by simp)
    · dsimp only at h
      cases hw : direct_bills_loop a c.displayName none (b :: bs) with
      | error err2 =>
        rw [hw] at h
        injection h with heq
        rw [← heq]
        exact Or.inr (direct_bills_loop_error a c.displayName (b :: bs) none err2 hw)
      | ok v =>
        obtain ⟨rid, r, os, oe⟩ := v
        rw [hw] at h
        exact absurd h (by simp)

/-- All temps of a successful DIRECT contribution loop carry the value
1. -/
theorem direct_temps_values (s e : Date) (bills : Option (List Bill)) :
    ∀ (l : List Contribution) (temps : List StrategyTemp),
    direct_temps s e bills l = .ok temps →
    ∀ t ∈ temps, t.finalConsumption = 1 := by
  intro l
  induction l with
  | nil =>
    intro temps h t ht
    unfold direct_temps at h
    injection h with heq
    rw [← heq] at ht
    cases ht
  | cons c rest ih =>
    intro temps h t ht
    unfold direct_temps at h
    cases hdt : direct_temp c s e bills with
    | error err =>
      rw [hdt] at h
      exact absurd h (by simp)
    | ok t0 =>
      rw [hdt] at h
      dsimp only at h
      cases hrec : direct_temps s e bills rest with
      | error err =>
        rw [hrec] at h
        exact absurd h (by simp)
      | ok more =>
        rw [hrec] at h
        dsimp only at h
        injection h with heq
        rw [← heq] at ht
        rcases List.mem_cons.mp ht with rfl | hmem
        · exact direct_temp_ok_value c s e bills t hdt
        · exact ih more hrec t hmem

/-- C4: for the DIRECT strategy, every result of a successful calculation
carries the value 1 (full pass-through, never prorated); a contribution
without bills succeeds exactly when the contract-mode occupancy splitting
of the calculation window has no vacancy and consists of exactly one
tenant sub-interval, and that sub-interval spans the whole window
whenever the splitting tiles it; with bills, every bill window must split
into exactly one tenant sub-interval held by one and the same renter
across all bills; a failing contribution reports a missing apartment or
an occupancy error naming the apartment. -/
theorem calculate_direct_spec :
    (∀ (cc : CostCenter) (s e : Date) (bills : Option (List Bill))
       (res : CostCenterCalculation),
      calculate_direct cc s e bills = .ok res →
      ∀ cr ∈ res.contributionResults, cr.finalConsumption = 1) ∧
    (∀ (c : Contribution) (s e : Date) (a : Apartment) (t : StrategyTemp),
      c.apartment = some a → direct_temp c s e none = .ok t →
      t.finalConsumption = 1 ∧
      (get_renters_for_period a s e true).filter
        (fun q => q.renterId = none) = [] ∧
      ∃ p, get_renters_for_period a s e true = [p] ∧
        t.renterId = p.renterId ∧ p.renterId ≠ none ∧
        (TilesFrom e s (get_renters_for_period a s e true) →
          p.startDate = s ∧ p.endDate = e)) ∧
    (∀ (c : Contribution) (s e : Date) (a : Apartment) (b0 : Bill)
       (bs : List Bill) (t : StrategyTemp),
      c.apartment = some a → direct_temp c s e (some (b0 :: bs)) = .ok t →
      ∃ rid, t.renterId = some rid ∧
        ∀ b ∈ b0 :: bs, ∃ p,
          direct_window a c.displayName b.fromDate b.toDate = .ok p ∧
          p.renterId = some rid) ∧
    (∀ (c : Contribution) (s e : Date) (bills : Option (List Bill))
       (err : CalcError),
      direct_temp c s e bills = .error err →
      err = .missingApartment ∨ err.isOccupancyB c.displayName = true) := by
  refine ⟨?_, ?_, ?_, ?_⟩
  · intro cc s e bills res hok cr hcr
    unfold calculate_direct at hok
    cases hdt : direct_temps s e bills cc.contributions with
    | error err =>
      rw [hdt] at hok
      exact absurd hok (by simp)
    | ok temps =>
      rw [hdt] at hok
      dsimp only at hok
      injection hok with heq
      subst heq
      dsimp only at hcr
      unfold temps_to_results at hcr
      rw [List.mem_map] at hcr
      obtain ⟨t, ht, rfl⟩ := hcr
      exact direct_temps_values s e bills cc.contributions temps hdt t ht
  · intro c s e a t ha hok
    unfold direct_temp at hok
    rw [ha] at hok
    dsimp only at hok
    cases hw : direct_window a c.displayName s e with
    | error err =>
      rw [hw] at hok
      exact absurd hok (by simp)
    | ok p =>
      rw [hw] at hok
      dsimp only at hok
      have hwin := direct_window_ok a c.displayName s e p hw
      cases hrid : p.renterId with
      | none =>
        rw [hrid] at hok
        exact absurd hok (by cases p.renter <;> simp)
      | some rid =>
        cases hr : p.renter with
        | none =>
          rw [hrid, hr] at hok
          exact absurd hok (by simp)
        | some r =>
          rw [hrid, hr] at hok
          dsimp only at hok
          injection hok with heq
          refine ⟨by rw [← heq], hwin.1, p, hwin.2.1, by rw [← heq, hrid],
            hwin.2.2.1, hwin.2.2.2⟩
  · intro c s e a b0 bs t ha hok
    unfold direct_temp at hok
    rw [ha] at hok
    dsimp only at hok
    cases hw : direct_bills_loop a c.displayName none (b0 :: bs) with
    | error err =>
      rw [hw] at hok
      exact absurd hok (by simp)
    | ok v =>
      obtain ⟨rid, r, os, oe⟩ := v
      rw [hw] at hok
      dsimp only at hok
      injection hok with heq
      have hres := direct_bills_loop_ok a c.displayName (b0 :: bs) none rid r os oe hw
      exact ⟨rid, by rw [← heq], hres.2⟩
  · intro c s e bills err h
    exact direct_temp_error c s e bills err h

/-- Contribution assigning apartment 21 directly. -/
def contributionDirect : Contribution :=
  { id := 51, apartment := some apartment21, specialDesignation := "",
    consumptionCalc := none }

/-- C4 witness: for the concrete direct contribution over apartment 21,
the theorem yields value 1 and a single tenant sub-interval spanning the
whole window [0, 10). -/
theorem calculate_direct_spec_witness :
    ∃ t p, direct_temp contributionDirect 0 10 none = .ok t ∧
      t.finalConsumption = 1 ∧
      get_renters_for_period apartment21 0 10 true = [p] ∧
      p.startDate = 0 ∧ p.endDate = 10 := by
  have htile : TilesFrom 10 0 (get_renters_for_period apartment21 0 10 true) := by
    simp only [get_renters_for_period, apartment21, renterContractFilter,
      List.filter, List.insertionSort, List.orderedInsert, renters_loop,
      clipStart, clipEnd, renterPeriodStart, renterPeriodEnd, TilesFrom]
    norm_num [TilesFrom]
  have heval : (direct_temp contributionDirect 0 10 none).map
      (fun t => t.finalConsumption) = .ok 1 := by
    norm_num [contributionDirect, apartment21, direct_temp, direct_window,
      get_renters_for_period, renterContractFilter, List.filter_cons,
      List.filter_nil, decide_eq_true_eq,
      List.insertionSort, List.orderedInsert, renters_loop, clipStart,
      clipEnd, renterPeriodStart, renterPeriodEnd, Contribution.displayName,
      dummyResult, Except.map]
    simp only [if_neg (show ¬((some 21 : Option ℕ) = none) from by decide)]
  cases hok : direct_temp contributionDirect 0 10 none with
  | error err =>
    rw [hok] at heval
    exact absurd heval (by simp [Except.map])
  | ok t =>
    have h2 := calculate_direct_spec.2.1 contributionDirect 0 10 apartment21 t
      rfl hok
    obtain ⟨hval, hvac, p, hper, hrid, hrne, hcov⟩ := h2
    exact ⟨t, p, rfl, hval, hper, (hcov htile).1, (hcov htile).2⟩

end LibreLandlord
